import Mathlib

/-!
Verification development for the domain-pricing resolution pipeline of the
`domainanalyser1` repository.  The JavaScript sources are shallowly embedded:
JS strings become `List Char` (`Str`), JS numbers used as prices become `Nat`
(the repository's prices are integral; the JS falsiness of `0` is modelled
explicitly), nullable values become `Option`, and the regex patterns of
`priceExistsInContent` become executable scanning functions with the same
backtracking semantics.  External collaborators (Gmail, the AI oracle, the
spreadsheet parser, SQL storage) are modelled by passing their outputs as
explicit arguments, as the spec describes them as untrusted inputs.
-/

open List

abbrev Str := List Char

/-- ASCII lower-casing of one character, matching `String.prototype.toLowerCase`
on the ASCII inputs used throughout the repository. -/
def lcChar (c : Char) : Char := c.toLower

/-- Lower-case a JS string (character list). -/
def lcStr (s : Str) : Str := s.map lcChar

/-- JS regex `\s` on the white-space characters occurring in email text
(ASCII white space and no-break space). -/
def isSpaceChar (c : Char) : Bool :=
  c = ' ' || c = '\t' || c = '\n' || c = '\r' ||
  c = Char.ofNat 11 || c = Char.ofNat 12 || c = Char.ofNat 160

/-- JS regex `\d`. -/
def isDigitChar (c : Char) : Bool := c.isDigit

/-- JS regex `\w` (word character, as used by `\b` boundaries). -/
def isWordChar (c : Char) : Bool := c.isAlphanum || c = '_'

/-- `needle.isPrefixOf hay` as used by the JS `startsWith`. -/
def startsWithL (hay needle : Str) : Bool := needle.isPrefixOf hay

/-- JS `String.prototype.includes`: `needle` occurs contiguously in `hay`. -/
def includesL : Str → Str → Bool
  | hay, needle =>
    if needle.isPrefixOf hay then true
    else match hay with
      | [] => false
      | _ :: rest => includesL rest needle

/-! ### Regex-pattern combinators

Each strict pattern of `priceExistsInContent` (src/unnamed/part_000, lines
273-331) is compiled to a continuation-passing matcher over `Str`.  The
combinators implement the exact existential (backtracking) semantics of the
corresponding regex pieces. -/

/-- Match the literal `lit` here, then continue with `k`. -/
def litThen (lit : Str) (k : Str → Bool) (s : Str) : Bool :=
  lit.isPrefixOf s && k (s.drop lit.length)

/-- Regex `\s*` followed by the continuation `k` (backtracking semantics). -/
def spacesThen (k : Str → Bool) : Str → Bool
  | [] => k []
  | c :: cs => k (c :: cs) || (isSpaceChar c && spacesThen k cs)

/-- Regex `[^\d]{0,n}` followed by the continuation `k`. -/
def nonDigitsUpTo (n : Nat) (k : Str → Bool) : Str → Bool
  | [] => k []
  | c :: cs =>
    k (c :: cs) ||
    (match n with
     | 0 => false
     | m + 1 => !isDigitChar c && nonDigitsUpTo m k cs)

/-- Regex alternation over literal alternatives, then continuation `k`. -/
def anyLitThen (lits : List Str) (k : Str → Bool) (s : Str) : Bool :=
  lits.any (fun l => litThen l k s)

/-- Regex `c?` (optional single character), then continuation `k`. -/
def optCharThen (c : Char) (k : Str → Bool) : Str → Bool
  | [] => k []
  | d :: ds => k (d :: ds) || (d = c && k ds)

/-- Try the matcher `p` at every position of the input (regex scanning). -/
def scanFor (p : Str → Bool) : Str → Bool
  | [] => p []
  | c :: cs => p (c :: cs) || scanFor p cs

/-- Positions strictly inside the input: the previous character must be a
non-word character for the `\b` boundary to hold. -/
def scanForAtBoundaryAux (p : Str → Bool) : Char → Str → Bool
  | _, [] => false
  | prev, c :: cs =>
    ((!isWordChar prev) && p (c :: cs)) || scanForAtBoundaryAux p c cs

/-- Try `p` at every position that sits at a `\b` word boundary (start of the
input or preceded by a non-word character). -/
def scanForAtBoundary (p : Str → Bool) : Str → Bool
  | [] => p []
  | c :: cs => p (c :: cs) || scanForAtBoundaryAux p c cs

/-- Regex `\b` at the current position coming out of a word character: the
next character must not be a word character (or the input ends). -/
def boundaryHere : Str → Bool
  | [] => true
  | c :: _ => !isWordChar c

/-! ### `priceExistsInContent` (src/unnamed/part_000, lines 273-331)

The strict patterns are built from `priceStr` (the decimal digits of the
price) and `priceNum = parseInt(price, 10)`.  Prices are modelled as `Nat`,
for which `String(price)` and `String(parseInt(price, 10))` coincide, so each
source pattern pair written once with `priceStr` and once with `priceNum`
is embedded by a single matcher. -/

/-- Currency codes of the strict patterns, lower-cased (the regexes carry the
`i` flag and are run here against lower-cased content). -/
def currencyCodes : List Str :=
  ["usd", "eur", "gbp", "inr", "aud", "cad"].map String.data

/-- Currency words (singular stems) of the strict patterns. -/
def currencyWords : List Str :=
  ["dollar", "euro", "pound", "rupee"].map String.data

/-- Price keywords allowed before the number. -/
def priceKeywordsBefore : List Str :=
  ["price", "cost", "rate", "fee", "charge"].map String.data

/-- Price keywords allowed after the number (the source omits `charge` here). -/
def priceKeywordsAfter : List Str :=
  ["price", "cost", "rate", "fee"].map String.data

/-- Connectives of the pattern `(price|...)[^\d]{0,15}(is|for|at|of)\s*N`. -/
def priceConnectives : List Str :=
  ["is", "for", "at", "of"].map String.data

/-- Negotiation words of the pattern `(okay|ok|agreed|deal|works)\s*(for|at)\s*N`. -/
def negotiationWords : List Str :=
  ["okay", "ok", "agreed", "deal", "works"].map String.data

/-- Pattern `SYM\s*N` for a currency symbol `sym`. -/
def patSymbol (sym : Char) (num : Str) : Str → Bool :=
  scanFor (litThen [sym] (spacesThen (litThen num (fun _ => true))))

/-- Pattern `SYM\s*N\.00`. -/
def patSymbolDecimal (sym : Char) (num : Str) : Str → Bool :=
  scanFor (litThen [sym] (spacesThen (litThen (num ++ ('.' :: ['0', '0'])) (fun _ => true))))

/-- Pattern `N\s*(USD|EUR|GBP|INR|AUD|CAD)\b`. -/
def patCodeAfter (num : Str) : Str → Bool :=
  scanFor (litThen num (spacesThen (anyLitThen currencyCodes boundaryHere)))

/-- Pattern `\b(USD|EUR|GBP|INR|AUD|CAD)\s*N\b`. -/
def patCodeBefore (num : Str) : Str → Bool :=
  scanForAtBoundary (anyLitThen currencyCodes (spacesThen (litThen num boundaryHere)))

/-- Pattern `(price|cost|rate|fee|charge)[^\d]{0,20}N`. -/
def patKeywordBefore (num : Str) : Str → Bool :=
  scanFor (anyLitThen priceKeywordsBefore (nonDigitsUpTo 20 (litThen num (fun _ => true))))

/-- Pattern `N[^\d]{0,20}(price|cost|rate|fee)`. -/
def patKeywordAfter (num : Str) : Str → Bool :=
  scanFor (litThen num (nonDigitsUpTo 20 (anyLitThen priceKeywordsAfter (fun _ => true))))

/-- Pattern `N\s*(dollars?|euros?|pounds?|rupees?)`: the optional plural `s`
ends the pattern, so matching the singular stem suffices. -/
def patWordAfter (num : Str) : Str → Bool :=
  scanFor (litThen num (spacesThen (anyLitThen currencyWords (fun _ => true))))

/-- Pattern `(dollars?|euros?|pounds?|rupees?)[^\d]{0,10}N`. -/
def patWordBefore (num : Str) : Str → Bool :=
  scanFor (anyLitThen currencyWords (optCharThen 's' (nonDigitsUpTo 10 (litThen num (fun _ => true)))))

/-- Pattern `(price|cost|rate|fee|charge)[^\d]{0,15}(is|for|at|of)\s*N`. -/
def patKeywordConnective (num : Str) : Str → Bool :=
  scanFor (anyLitThen priceKeywordsBefore
    (nonDigitsUpTo 15 (anyLitThen priceConnectives (spacesThen (litThen num (fun _ => true))))))

/-- Pattern `(okay|ok|agreed|deal|works)\s*(for|at)\s*N`. -/
def patNegotiation (num : Str) : Str → Bool :=
  scanFor (anyLitThen negotiationWords
    (spacesThen (anyLitThen (["for", "at"].map String.data) (spacesThen (litThen num (fun _ => true))))))

/-- Anti-hallucination validation `priceExistsInContent(content, price)`:
an extracted price is accepted only if it re-occurs in the content inside one
of the strict currency / price-keyword / negotiation patterns.  The source
returns `false` immediately on an empty content or falsy price. -/
def priceExistsInContent (content : String) (price : Nat) : Bool :=
  if content.data.isEmpty || price == 0 then false
  else
    let cl := lcStr content.data
    let num := (Nat.repr price).data
    patSymbol '$' num cl || patSymbol '€' num cl || patSymbol '£' num cl ||
    patCodeAfter num cl || patCodeBefore num cl ||
    patSymbolDecimal '$' num cl || patSymbolDecimal '€' num cl || patSymbolDecimal '£' num cl ||
    patKeywordBefore num cl || patKeywordAfter num cl ||
    patWordAfter num cl || patWordBefore num cl ||
    patKeywordConnective num cl || patNegotiation num cl

example : priceExistsInContent "Guest post price: $200, casino not accepted" 200 = true := by decide
example : priceExistsInContent "DA 45, traffic 9000, contact us" 9999 = false := by decide
example : priceExistsInContent "we are okay for 55 per post" 55 = true := by decide
example : priceExistsInContent "the token 500 appears without context" 500 = false := by decide
example : priceExistsInContent "rate card: 120 EUR" 120 = true := by decide
example : priceExistsInContent "" 100 = false := by decide

/-! ### Splitting lemmas for the pattern combinators

Each matcher acceptance is turned into an explicit decomposition of the
input, so that the strict patterns can be related to the spec-level
description of grounded prices. -/

theorem litThen_split {lit : Str} {k : Str → Bool} {s : Str}
    (h : litThen lit k s = true) : ∃ r, s = lit ++ r ∧ k r = true := by
  unfold litThen at h
  rw [Bool.and_eq_true] at h
  obtain ⟨h1, h2⟩ := h
  rw [List.isPrefixOf_iff_prefix] at h1
  obtain ⟨r, hr⟩ := h1
  refine ⟨r, hr.symm, ?_⟩
  rw [← hr, List.drop_left] at h2
  exact h2

theorem spacesThen_split {k : Str → Bool} : ∀ {s : Str}, spacesThen k s = true →
    ∃ ws r, s = ws ++ r ∧ (∀ c ∈ ws, isSpaceChar c = true) ∧ k r = true
  | [], h => ⟨[], [], rfl, by simp, h⟩
  | c :: cs, h => by
    unfold spacesThen at h
    rw [Bool.or_eq_true] at h
    cases h with
    | inl h => exact ⟨[], c :: cs, rfl, by simp, h⟩
    | inr h =>
      rw [Bool.and_eq_true] at h
      obtain ⟨hc, hrec⟩ := h
      obtain ⟨ws, r, heq, hws, hk⟩ := spacesThen_split hrec
      refine ⟨c :: ws, r, by simp [heq], ?_, hk⟩
      intro x hx
      rcases List.mem_cons.mp hx with hx | hx
      · exact hx ▸ hc
      · exact hws x hx

theorem nonDigitsUpTo_split {k : Str → Bool} : ∀ {n : Nat} {s : Str},
    nonDigitsUpTo n k s = true →
    ∃ g r, s = g ++ r ∧ (∀ c ∈ g, isDigitChar c = false) ∧ k r = true
  | _, [], h => ⟨[], [], rfl, by simp, by unfold nonDigitsUpTo at h; exact h⟩
  | n, c :: cs, h => by
    unfold nonDigitsUpTo at h
    rw [Bool.or_eq_true] at h
    cases h with
    | inl h => exact ⟨[], c :: cs, rfl, by simp, h⟩
    | inr h =>
      match n, h with
      | m + 1, h =>
        rw [Bool.and_eq_true] at h
        obtain ⟨hc, hrec⟩ := h
        obtain ⟨g, r, heq, hg, hk⟩ := nonDigitsUpTo_split hrec
        refine ⟨c :: g, r, by simp [heq], ?_, hk⟩
        intro x hx
        rcases List.mem_cons.mp hx with hx | hx
        · subst hx
          exact Bool.not_eq_true' (isDigitChar x) |>.mp hc
        · exact hg x hx

theorem anyLitThen_split {lits : List Str} {k : Str → Bool} {s : Str}
    (h : anyLitThen lits k s = true) :
    ∃ l ∈ lits, ∃ r, s = l ++ r ∧ k r = true := by
  unfold anyLitThen at h
  rw [List.any_eq_true] at h
  obtain ⟨l, hl, hlit⟩ := h
  obtain ⟨r, hr, hk⟩ := litThen_split hlit
  exact ⟨l, hl, r, hr, hk⟩

theorem optCharThen_split {c : Char} {k : Str → Bool} : ∀ {s : Str},
    optCharThen c k s = true →
    ∃ g r, s = g ++ r ∧ (∀ x ∈ g, x = c) ∧ k r = true
  | [], h => ⟨[], [], rfl, by simp, h⟩
  | d :: ds, h => by
    unfold optCharThen at h
    rw [Bool.or_eq_true] at h
    cases h with
    | inl h => exact ⟨[], d :: ds, rfl, by simp, h⟩
    | inr h =>
      rw [Bool.and_eq_true] at h
      obtain ⟨hd, hk⟩ := h
      refine ⟨[d], ds, rfl, ?_, hk⟩
      intro x hx
      rw [List.mem_singleton] at hx
      subst hx
      exact of_decide_eq_true hd

theorem scanFor_split {p : Str → Bool} : ∀ {s : Str}, scanFor p s = true →
    ∃ a b, s = a ++ b ∧ p b = true
  | [], h => ⟨[], [], rfl, h⟩
  | c :: cs, h => by
    unfold scanFor at h
    rw [Bool.or_eq_true] at h
    cases h with
    | inl h => exact ⟨[], c :: cs, rfl, h⟩
    | inr h =>
      obtain ⟨a, b, heq, hp⟩ := scanFor_split h
      exact ⟨c :: a, b, by simp [heq], hp⟩

theorem scanForAtBoundaryAux_split {p : Str → Bool} : ∀ {prev : Char} {s : Str},
    scanForAtBoundaryAux p prev s = true → ∃ a b, s = a ++ b ∧ p b = true
  | _, [], h => by simp [scanForAtBoundaryAux] at h
  | prev, c :: cs, h => by
    unfold scanForAtBoundaryAux at h
    rw [Bool.or_eq_true] at h
    cases h with
    | inl h =>
      rw [Bool.and_eq_true] at h
      exact ⟨[], c :: cs, rfl, h.2⟩
    | inr h =>
      obtain ⟨a, b, heq, hp⟩ := scanForAtBoundaryAux_split h
      exact ⟨c :: a, b, by simp [heq], hp⟩

theorem scanForAtBoundary_split {p : Str → Bool} {s : Str}
    (h : scanForAtBoundary p s = true) : ∃ a b, s = a ++ b ∧ p b = true := by
  match s, h with
  | [], h => exact ⟨[], [], rfl, h⟩
  | c :: cs, h =>
    unfold scanForAtBoundary at h
    rw [Bool.or_eq_true] at h
    cases h with
    | inl h => exact ⟨[], c :: cs, rfl, h⟩
    | inr h =>
      obtain ⟨a, b, heq, hp⟩ := scanForAtBoundaryAux_split h
      exact ⟨c :: a, b, by simp [heq], hp⟩

/-! ### Spec-level description of a grounded price (spec 4.3 step 7)

The spec describes the validation as accepting a price only when it is
re-located "via strict pattern matching (currency symbol adjacent, currency
code adjacent, or price-keyword/negotiation-phrase proximity)".  The
predicates below are written from those words: adjacency allows only white
space between the currency marker and the number, proximity allows a gap of
non-digit characters. -/

/-- All characters of `ws` are white space. -/
def AllSpaces (ws : Str) : Prop := ∀ c ∈ ws, isSpaceChar c = true

/-- All characters of `g` are non-digits. -/
def AllNonDigits (g : Str) : Prop := ∀ c ∈ g, isDigitChar c = false

/-- The digits `num` occur immediately after a currency symbol, separated
only by white space. -/
def CurrencySymbolAdjacent (content num : Str) : Prop :=
  ∃ sym a ws b, sym ∈ (['$', '€', '£'] : List Char) ∧ AllSpaces ws ∧
    content = a ++ [sym] ++ ws ++ num ++ b

/-- The digits `num` occur adjacent to a currency code (only white space
between code and number, on either side). -/
def CurrencyCodeAdjacent (content num : Str) : Prop :=
  ∃ code ∈ currencyCodes,
    (∃ a ws b, AllSpaces ws ∧ content = a ++ num ++ ws ++ code ++ b) ∨
    (∃ a ws b, AllSpaces ws ∧ content = a ++ code ++ ws ++ num ++ b)

/-- The digits `num` occur next to a currency word (white space after the
number, or a non-digit gap between the word and the number). -/
def CurrencyWordProximity (content num : Str) : Prop :=
  ∃ w ∈ currencyWords,
    (∃ a ws b, AllSpaces ws ∧ content = a ++ num ++ ws ++ w ++ b) ∨
    (∃ a g b, AllNonDigits g ∧ content = a ++ w ++ g ++ num ++ b)

/-- The digits `num` occur in proximity to a price keyword, separated only
by non-digit characters. -/
def PriceKeywordProximity (content num : Str) : Prop :=
  (∃ kw ∈ priceKeywordsBefore, ∃ a g b, AllNonDigits g ∧ content = a ++ kw ++ g ++ num ++ b) ∨
  (∃ kw ∈ priceKeywordsAfter, ∃ a g b, AllNonDigits g ∧ content = a ++ num ++ g ++ kw ++ b)

/-- The digits `num` occur in proximity to a negotiation phrase, separated
only by non-digit characters. -/
def NegotiationPhraseProximity (content num : Str) : Prop :=
  ∃ kw ∈ negotiationWords, ∃ a g b, AllNonDigits g ∧ content = a ++ kw ++ g ++ num ++ b

/-- Spec 4.3 step 7: the price is grounded in the content via a currency
symbol, a currency code or word, a price keyword, or a negotiation phrase. -/
def GroundedPriceContext (content num : Str) : Prop :=
  CurrencySymbolAdjacent content num ∨ CurrencyCodeAdjacent content num ∨
  CurrencyWordProximity content num ∨ PriceKeywordProximity content num ∨
  NegotiationPhraseProximity content num

/-- White space is never a digit. -/
theorem isSpaceChar_not_digit {c : Char} (h : isSpaceChar c = true) :
    isDigitChar c = false := by
  unfold isSpaceChar at h
  simp only [Bool.or_eq_true, decide_eq_true_eq] at h
  rcases h with ((((((h | h) | h) | h) | h) | h) | h) <;> subst h <;> decide

/-- The spelled-out connective words contain no digit. -/
theorem priceConnectives_not_digit :
    ∀ l ∈ priceConnectives, ∀ c ∈ l, isDigitChar c = false := by decide

/-- The negotiation connectives `for`/`at` contain no digit. -/
theorem negConnectives_not_digit :
    ∀ l ∈ (["for", "at"].map String.data), ∀ c ∈ l, isDigitChar c = false := by decide

/-- Appending preserves `AllNonDigits`. -/
theorem allNonDigits_append {g1 g2 : Str} (h1 : AllNonDigits g1) (h2 : AllNonDigits g2) :
    AllNonDigits (g1 ++ g2) := by
  intro c hc
  rcases List.mem_append.mp hc with hc | hc
  · exact h1 c hc
  · exact h2 c hc

/-- White-space runs are non-digit runs. -/
theorem allSpaces_nonDigits {ws : Str} (h : AllSpaces ws) : AllNonDigits ws :=
  fun c hc => isSpaceChar_not_digit (h c hc)

theorem patSymbol_grounded {sym : Char} {num cl : Str} (h : patSymbol sym num cl = true) :
    ∃ a ws b, AllSpaces ws ∧ cl = a ++ [sym] ++ ws ++ num ++ b := by
  obtain ⟨a, b0, hab, hp⟩ := scanFor_split h
  obtain ⟨r1, hb0, hsp⟩ := litThen_split hp
  obtain ⟨ws, r2, hr1, hws, hlit⟩ := spacesThen_split hsp
  obtain ⟨b, hr2, -⟩ := litThen_split hlit
  subst hab hb0 hr1 hr2
  exact ⟨a, ws, b, hws, by simp [List.append_assoc]⟩

theorem patSymbolDecimal_grounded {sym : Char} {num cl : Str}
    (h : patSymbolDecimal sym num cl = true) :
    ∃ a ws b, AllSpaces ws ∧ cl = a ++ [sym] ++ ws ++ num ++ b := by
  obtain ⟨a, b0, hab, hp⟩ := scanFor_split h
  obtain ⟨r1, hb0, hsp⟩ := litThen_split hp
  obtain ⟨ws, r2, hr1, hws, hlit⟩ := spacesThen_split hsp
  obtain ⟨b, hr2, -⟩ := litThen_split hlit
  subst hab hb0 hr1 hr2
  exact ⟨a, ws, ('.' :: ['0', '0']) ++ b, hws, by simp [List.append_assoc]⟩

theorem patCodeAfter_grounded {num cl : Str} (h : patCodeAfter num cl = true) :
    ∃ code ∈ currencyCodes, ∃ a ws b, AllSpaces ws ∧ cl = a ++ num ++ ws ++ code ++ b := by
  obtain ⟨a, b0, hab, hp⟩ := scanFor_split h
  obtain ⟨r1, hb0, hsp⟩ := litThen_split hp
  obtain ⟨ws, r2, hr1, hws, hany⟩ := spacesThen_split hsp
  obtain ⟨code, hcode, b, hr2, -⟩ := anyLitThen_split hany
  subst hab hb0 hr1 hr2
  exact ⟨code, hcode, a, ws, b, hws, by simp [List.append_assoc]⟩

theorem patCodeBefore_grounded {num cl : Str} (h : patCodeBefore num cl = true) :
    ∃ code ∈ currencyCodes, ∃ a ws b, AllSpaces ws ∧ cl = a ++ code ++ ws ++ num ++ b := by
  obtain ⟨a, b0, hab, hp⟩ := scanForAtBoundary_split h
  obtain ⟨code, hcode, r1, hb0, hsp⟩ := anyLitThen_split hp
  obtain ⟨ws, r2, hr1, hws, hlit⟩ := spacesThen_split hsp
  obtain ⟨b, hr2, -⟩ := litThen_split hlit
  subst hab hb0 hr1 hr2
  exact ⟨code, hcode, a, ws, b, hws, by simp [List.append_assoc]⟩

theorem patKeywordBefore_grounded {num cl : Str} (h : patKeywordBefore num cl = true) :
    ∃ kw ∈ priceKeywordsBefore, ∃ a g b, AllNonDigits g ∧ cl = a ++ kw ++ g ++ num ++ b := by
  obtain ⟨a, b0, hab, hp⟩ := scanFor_split h
  obtain ⟨kw, hkw, r1, hb0, hnd⟩ := anyLitThen_split hp
  obtain ⟨g, r2, hr1, hg, hlit⟩ := nonDigitsUpTo_split hnd
  obtain ⟨b, hr2, -⟩ := litThen_split hlit
  subst hab hb0 hr1 hr2
  exact ⟨kw, hkw, a, g, b, hg, by simp [List.append_assoc]⟩

theorem patKeywordAfter_grounded {num cl : Str} (h : patKeywordAfter num cl = true) :
    ∃ kw ∈ priceKeywordsAfter, ∃ a g b, AllNonDigits g ∧ cl = a ++ num ++ g ++ kw ++ b := by
  obtain ⟨a, b0, hab, hp⟩ := scanFor_split h
  obtain ⟨r1, hb0, hnd⟩ := litThen_split hp
  obtain ⟨g, r2, hr1, hg, hany⟩ := nonDigitsUpTo_split hnd
  obtain ⟨kw, hkw, b, hr2, -⟩ := anyLitThen_split hany
  subst hab hb0 hr1 hr2
  exact ⟨kw, hkw, a, g, b, hg, by simp [List.append_assoc]⟩

theorem patWordAfter_grounded {num cl : Str} (h : patWordAfter num cl = true) :
    ∃ w ∈ currencyWords, ∃ a ws b, AllSpaces ws ∧ cl = a ++ num ++ ws ++ w ++ b := by
  obtain ⟨a, b0, hab, hp⟩ := scanFor_split h
  obtain ⟨r1, hb0, hsp⟩ := litThen_split hp
  obtain ⟨ws, r2, hr1, hws, hany⟩ := spacesThen_split hsp
  obtain ⟨w, hw, b, hr2, -⟩ := anyLitThen_split hany
  subst hab hb0 hr1 hr2
  exact ⟨w, hw, a, ws, b, hws, by simp [List.append_assoc]⟩

theorem patWordBefore_grounded {num cl : Str} (h : patWordBefore num cl = true) :
    ∃ w ∈ currencyWords, ∃ a g b, AllNonDigits g ∧ cl = a ++ w ++ g ++ num ++ b := by
  obtain ⟨a, b0, hab, hp⟩ := scanFor_split h
  obtain ⟨w, hw, r1, hb0, hopt⟩ := anyLitThen_split hp
  obtain ⟨gs, r2, hr1, hgs, hnd⟩ := optCharThen_split hopt
  obtain ⟨g, r3, hr2, hg, hlit⟩ := nonDigitsUpTo_split hnd
  obtain ⟨b, hr3, -⟩ := litThen_split hlit
  subst hab hb0 hr1 hr2 hr3
  refine ⟨w, hw, a, gs ++ g, b, ?_, by simp [List.append_assoc]⟩
  refine allNonDigits_append ?_ hg
  intro c hc
  rw [hgs c hc]
  decide

theorem patKeywordConnective_grounded {num cl : Str} (h : patKeywordConnective num cl = true) :
    ∃ kw ∈ priceKeywordsBefore, ∃ a g b, AllNonDigits g ∧ cl = a ++ kw ++ g ++ num ++ b := by
  obtain ⟨a, b0, hab, hp⟩ := scanFor_split h
  obtain ⟨kw, hkw, r1, hb0, hnd⟩ := anyLitThen_split hp
  obtain ⟨g1, r2, hr1, hg1, hany⟩ := nonDigitsUpTo_split hnd
  obtain ⟨conn, hconn, r3, hr2, hsp⟩ := anyLitThen_split hany
  obtain ⟨ws, r4, hr3, hws, hlit⟩ := spacesThen_split hsp
  obtain ⟨b, hr4, -⟩ := litThen_split hlit
  subst hab hb0 hr1 hr2 hr3 hr4
  refine ⟨kw, hkw, a, g1 ++ conn ++ ws, b, ?_, by simp [List.append_assoc]⟩
  exact allNonDigits_append (allNonDigits_append hg1
    (priceConnectives_not_digit conn hconn)) (allSpaces_nonDigits hws)

theorem patNegotiation_grounded {num cl : Str} (h : patNegotiation num cl = true) :
    ∃ kw ∈ negotiationWords, ∃ a g b, AllNonDigits g ∧ cl = a ++ kw ++ g ++ num ++ b := by
  obtain ⟨a, b0, hab, hp⟩ := scanFor_split h
  obtain ⟨kw, hkw, r1, hb0, hsp1⟩ := anyLitThen_split hp
  obtain ⟨ws1, r2, hr1, hws1, hany⟩ := spacesThen_split hsp1
  obtain ⟨conn, hconn, r3, hr2, hsp2⟩ := anyLitThen_split hany
  obtain ⟨ws2, r4, hr3, hws2, hlit⟩ := spacesThen_split hsp2
  obtain ⟨b, hr4, -⟩ := litThen_split hlit
  subst hab hb0 hr1 hr2 hr3 hr4
  refine ⟨kw, hkw, a, ws1 ++ conn ++ ws2, b, ?_, by simp [List.append_assoc]⟩
  exact allNonDigits_append (allNonDigits_append (allSpaces_nonDigits hws1)
    (negConnectives_not_digit conn hconn)) (allSpaces_nonDigits hws2)

/-- Soundness of the anti-hallucination validation: a price accepted by
`priceExistsInContent` is grounded in the (lower-cased) content in one of the
spec-level currency / price-keyword / negotiation contexts. -/
theorem priceExistsInContent_grounded {content : String} {price : Nat}
    (h : priceExistsInContent content price = true) :
    GroundedPriceContext (lcStr content.data) ((Nat.repr price).data) := by
  unfold priceExistsInContent at h
  split at h
  · exact absurd h (by simp)
  · simp only [Bool.or_eq_true] at h
    rcases h with ((((((((((((h | h) | h) | h) | h) | h) | h) | h) | h) | h) | h) | h) | h) | h
    · obtain ⟨a, ws, b, hws, heq⟩ := patSymbol_grounded h
      exact Or.inl ⟨'$', a, ws, b, by decide, hws, heq⟩
    · obtain ⟨a, ws, b, hws, heq⟩ := patSymbol_grounded h
      exact Or.inl ⟨'€', a, ws, b, by decide, hws, heq⟩
    · obtain ⟨a, ws, b, hws, heq⟩ := patSymbol_grounded h
      exact Or.inl ⟨'£', a, ws, b, by decide, hws, heq⟩
    · obtain ⟨code, hcode, rest⟩ := patCodeAfter_grounded h
      exact Or.inr (Or.inl ⟨code, hcode, Or.inl rest⟩)
    · obtain ⟨code, hcode, rest⟩ := patCodeBefore_grounded h
      exact Or.inr (Or.inl ⟨code, hcode, Or.inr rest⟩)
    · obtain ⟨a, ws, b, hws, heq⟩ := patSymbolDecimal_grounded h
      exact Or.inl ⟨'$', a, ws, b, by decide, hws, heq⟩
    · obtain ⟨a, ws, b, hws, heq⟩ := patSymbolDecimal_grounded h
      exact Or.inl ⟨'€', a, ws, b, by decide, hws, heq⟩
    · obtain ⟨a, ws, b, hws, heq⟩ := patSymbolDecimal_grounded h
      exact Or.inl ⟨'£', a, ws, b, by decide, hws, heq⟩
    · obtain ⟨kw, hkw, rest⟩ := patKeywordBefore_grounded h
      exact Or.inr (Or.inr (Or.inr (Or.inl (Or.inl ⟨kw, hkw, rest⟩))))
    · obtain ⟨kw, hkw, rest⟩ := patKeywordAfter_grounded h
      exact Or.inr (Or.inr (Or.inr (Or.inl (Or.inr ⟨kw, hkw, rest⟩))))
    · obtain ⟨w, hw, rest⟩ := patWordAfter_grounded h
      exact Or.inr (Or.inr (Or.inl ⟨w, hw, Or.inl rest⟩))
    · obtain ⟨w, hw, rest⟩ := patWordBefore_grounded h
      exact Or.inr (Or.inr (Or.inl ⟨w, hw, Or.inr rest⟩))
    · obtain ⟨kw, hkw, rest⟩ := patKeywordConnective_grounded h
      exact Or.inr (Or.inr (Or.inr (Or.inl (Or.inl ⟨kw, hkw, rest⟩))))
    · obtain ⟨kw, hkw, rest⟩ := patNegotiation_grounded h
      exact Or.inr (Or.inr (Or.inr (Or.inr ⟨kw, hkw, rest⟩)))

/-- Any grounded occurrence contains the digit string as a substring. -/
theorem groundedPriceContext_occurs {content num : Str}
    (h : GroundedPriceContext content num) : ∃ a b, content = a ++ num ++ b := by
  rcases h with ⟨sym, a, ws, b, -, -, heq⟩ | ⟨code, -, ⟨a, ws, b, -, heq⟩ | ⟨a, ws, b, -, heq⟩⟩ |
    ⟨w, -, ⟨a, ws, b, -, heq⟩ | ⟨a, g, b, -, heq⟩⟩ |
    (⟨kw, -, a, g, b, -, heq⟩ | ⟨kw, -, a, g, b, -, heq⟩) | ⟨kw, -, a, g, b, -, heq⟩
  · exact ⟨a ++ [sym] ++ ws, b, by simp [heq, List.append_assoc]⟩
  · exact ⟨a, ws ++ code ++ b, by simp [heq, List.append_assoc]⟩
  · exact ⟨a ++ code ++ ws, b, by simp [heq, List.append_assoc]⟩
  · exact ⟨a, ws ++ w ++ b, by simp [heq, List.append_assoc]⟩
  · exact ⟨a ++ w ++ g, b, by simp [heq, List.append_assoc]⟩
  · exact ⟨a ++ kw ++ g, b, by simp [heq, List.append_assoc]⟩
  · exact ⟨a, g ++ kw ++ b, by simp [heq, List.append_assoc]⟩
  · exact ⟨a ++ kw ++ g, b, by simp [heq, List.append_assoc]⟩

/-- `includesL` is complete for substring occurrences. -/
theorem includesL_of_occurs {hay needle : Str} :
    ∀ {a b : Str}, hay = a ++ needle ++ b → includesL hay needle = true := by
  intro a
  induction a generalizing hay with
  | nil =>
    intro b heq
    unfold includesL
    have : needle.isPrefixOf hay = true := by
      rw [List.isPrefixOf_iff_prefix]
      exact ⟨b, by simp [heq]⟩
    simp [this]
  | cons c cs ih =>
    intro b heq
    subst heq
    unfold includesL
    split
    · rfl
    · exact ih rfl

/-! ### The AI extractor result pipeline (src/unnamed/part_000, lines 453-641)

`extractPricingForDomain(emailContent, targetDomain)` calls the OpenAI
collaborator and post-processes its parsed JSON response.  The response is
modelled by `OracleOutput` and passed as an explicit argument; the
post-processing (found check, anti-hallucination validation of the guest and
casino prices, normalisation, casino defaulting) is embedded below. -/

/-- Parsed JSON response of the AI oracle for one target domain. -/
structure OracleOutput where
  found : Bool
  guest_post_price : Option Nat
  link_insertion_price : Option Nat
  sponsored_post_price : Option Nat
  homepage_link_price : Option Nat
  casino_price : Option Nat
  casino_accepted : Option String
  currency : Option String
  confidence : Option String
  notes : Option String
deriving DecidableEq

/-- Normalised pricing data returned by the extractor. -/
structure PricingData where
  guest_post_price : Option Nat
  link_insertion_price : Option Nat
  sponsored_post_price : Option Nat
  homepage_link_price : Option Nat
  casino_price : Option Nat
  casino_accepted : String
  currency : String
  confidence : String
  notes : Option String
deriving DecidableEq

/-- JS truthiness of a nullable price (`0`, `null` and `undefined` are falsy). -/
def truthyNat : Option Nat → Bool
  | none => false
  | some n => n != 0

/-- JS `v || dflt` for nullable strings (`null`/`undefined`/`""` are falsy). -/
def jsOrString (v : Option String) (dflt : String) : String :=
  match v with
  | none => dflt
  | some s => if s.data.isEmpty then dflt else s

/-- JS `v || null` for nullable strings. -/
def jsOrNullString (v : Option String) : Option String :=
  match v with
  | none => none
  | some s => if s.data.isEmpty then none else some s

/-- `normalizePrice` (src/unnamed/part_000, lines 223-231): keep only strictly
positive numbers. -/
def normalizePrice : Option Nat → Option Nat
  | none => none
  | some n => if n > 0 then some n else none

/-- `normalizeConfidence` (src/unnamed/part_000, lines 239-244). -/
def normalizeConfidence (confidence : Option String) : String :=
  let normalized := String.mk (lcStr (jsOrString confidence "low").data)
  if (["high", "medium", "low"] : List String).contains normalized then normalized else "low"

/-- `extracted.casino_accepted?.toLowerCase() !== 'no'`: casino content is
taken as accepted unless the oracle explicitly answered `no`. -/
def casinoAcceptedFlag (v : Option String) : Bool :=
  match v with
  | none => true
  | some s => !(String.mk (lcStr s.data) == "no")

/-- `extractPricingForDomain` (src/unnamed/part_000, lines 453-641), given the
oracle's parsed response `extracted` for `emailContent`.  Mirrors the source:
reject on `found: false`; discard the whole candidate when the primary
(guest post) price fails `priceExistsInContent`; null out only the casino
price when it alone fails; then normalise, derive `casino_accepted`, and
default an accepted casino price to the guest post price. -/
def extractPricingForDomain (emailContent : String) (extracted : OracleOutput) :
    Option PricingData :=
  if emailContent.data.isEmpty then none
  else if !extracted.found then none
  else
    let guestFails :=
      match extracted.guest_post_price with
      | some n => n != 0 && !priceExistsInContent emailContent n
      | none => false
    if guestFails then none
    else
      let casinoChecked :=
        match extracted.casino_price with
        | some m =>
          if m != 0 && extracted.casino_price != extracted.guest_post_price &&
             !priceExistsInContent emailContent m
          then none else extracted.casino_price
        | none => none
      let guestPostPrice := normalizePrice extracted.guest_post_price
      let casinoNormalized := normalizePrice casinoChecked
      let casinoAccepted := casinoAcceptedFlag extracted.casino_accepted
      let casinoDefaulted :=
        if casinoAccepted && !truthyNat casinoNormalized && truthyNat guestPostPrice
        then guestPostPrice else casinoNormalized
      let casinoPrice := if !casinoAccepted then none else casinoDefaulted
      some {
        guest_post_price := guestPostPrice,
        link_insertion_price := normalizePrice extracted.link_insertion_price,
        sponsored_post_price := normalizePrice extracted.sponsored_post_price,
        homepage_link_price := normalizePrice extracted.homepage_link_price,
        casino_price := casinoPrice,
        casino_accepted := if casinoAccepted then "yes" else "no",
        currency := jsOrString extracted.currency "USD",
        confidence := normalizeConfidence extracted.confidence,
        notes := jsOrNullString extracted.notes }

/-- Any returned candidate carries the normalised oracle guest price. -/
theorem extractPricingForDomain_guest_eq {emailContent : String}
    {extracted : OracleOutput} {cand : PricingData}
    (h : extractPricingForDomain emailContent extracted = some cand) :
    cand.guest_post_price = normalizePrice extracted.guest_post_price := by
  simp only [extractPricingForDomain] at h
  repeat' split at h
  all_goals first
    | (cases h; rfl)
    | exact absurd h (by simp)

/-- Shared helper: a truthy primary (guest post) price failing
`priceExistsInContent` discards the whole candidate. -/
theorem extract_primary_reject {content : String} {extracted : OracleOutput} {n : Nat}
    (hg : extracted.guest_post_price = some n) (hn : n ≠ 0)
    (hex : priceExistsInContent content n = false) :
    extractPricingForDomain content extracted = none := by
  have hbne : (n != 0) = true := by simpa using hn
  simp only [extractPricingForDomain, hg, hex, hbne]
  split
  · rfl
  · split
    · rfl
    · simp

/-- Shared helper: when only the casino price is truthy, differs from the
guest price and fails `priceExistsInContent`, the run is identical to a run
in which the oracle reported no casino price at all. -/
theorem extract_casino_ignored {content : String} {extracted : OracleOutput} {m : Nat}
    (hc : extracted.casino_price = some m) (hm : m ≠ 0)
    (hne : extracted.casino_price ≠ extracted.guest_post_price)
    (hex : priceExistsInContent content m = false) :
    extractPricingForDomain content extracted =
      extractPricingForDomain content { extracted with casino_price := none } := by
  obtain ⟨f, gp, li, sp, hp, cp, ca, cur, conf, nts⟩ := extracted
  simp only at hc hne
  subst hc
  have hbne : (m != 0) = true := by simpa using hm
  have hbne2 : (some m != gp) = true := by simpa using hne
  simp only [extractPricingForDomain, hbne, hbne2, hex]
  simp

/-- Sample oracle output: grounded guest price 100, hallucinated casino
price 500, casino accepted. -/
def oracleCasinoHallucinated : OracleOutput :=
  { found := true, guest_post_price := some 100, link_insertion_price := none,
    sponsored_post_price := none, homepage_link_price := none,
    casino_price := some 500, casino_accepted := some "yes",
    currency := some "EUR", confidence := some "high", notes := none }

/-- C3 counterexample: with grounded guest price `100` and a casino price
`500` that fails the re-location check, the returned candidate does not carry
a null casino price — the nulled value is re-defaulted to the guest post
price, so `casino_price` comes back as `100`. -/
theorem extract_casino_not_nulled_counterexample :
    (extractPricingForDomain "Guest post price: $100" oracleCasinoHallucinated).map
      PricingData.casino_price = some (some 100) := by decide

/-- C3 (amended): if the primary (guest post) price fails the independent
re-location check `priceExistsInContent`, the whole candidate is discarded;
if only the casino-specific price fails, the run behaves as if the oracle
had reported no casino price (so the returned candidate keeps its other
fields, with the casino price re-defaulted to the guest post price whenever
casino content is accepted and a guest price exists, and null otherwise). -/
theorem extractPricingForDomain_validation (content : String) (extracted : OracleOutput) :
    (∀ n, extracted.guest_post_price = some n → n ≠ 0 →
      priceExistsInContent content n = false →
      extractPricingForDomain content extracted = none) ∧
    (∀ m, extracted.casino_price = some m → m ≠ 0 →
      extracted.casino_price ≠ extracted.guest_post_price →
      priceExistsInContent content m = false →
      extractPricingForDomain content extracted =
        extractPricingForDomain content { extracted with casino_price := none }) := by
  constructor
  · intro n hg hn hex
    exact extract_primary_reject hg hn hex
  · intro m hc hm hne hex
    exact extract_casino_ignored hc hm hne hex

/-- Oracle output whose guest price never occurs in the sample content. -/
def oracleUngroundedGuest : OracleOutput :=
  { found := true, guest_post_price := some 100, link_insertion_price := none,
    sponsored_post_price := none, homepage_link_price := none,
    casino_price := none, casino_accepted := none,
    currency := none, confidence := none, notes := none }

/-- Witness for the C3 theorem at concrete inputs: a failing primary price
discards the candidate, and a failing casino price yields the same result as
an absent casino price. -/
theorem extractPricingForDomain_validation_witness :
    extractPricingForDomain "hello there" oracleUngroundedGuest = none ∧
    extractPricingForDomain "Guest post price: $100" oracleCasinoHallucinated =
      extractPricingForDomain "Guest post price: $100"
        { oracleCasinoHallucinated with casino_price := none } := by
  refine ⟨?_, ?_⟩
  · exact (extractPricingForDomain_validation "hello there" oracleUngroundedGuest).1
      100 rfl (by decide) (by decide)
  · exact (extractPricingForDomain_validation "Guest post price: $100"
      oracleCasinoHallucinated).2 500 rfl (by decide) (by decide) (by decide)

/-- C4: a price that is not grounded in the content — not adjacent to a
currency symbol, not adjacent to a currency code or word, and not in
proximity to a price keyword or negotiation phrase — is rejected by
`priceExistsInContent`, and consequently the extractor produces no candidate
whose primary price is that number. -/
theorem ungrounded_price_produces_no_candidate (content : String) (P : Nat)
    (hng : ¬ GroundedPriceContext (lcStr content.data) ((Nat.repr P).data)) :
    priceExistsInContent content P = false ∧
    ∀ extracted : OracleOutput, extracted.guest_post_price = some P →
      (P ≠ 0 → extractPricingForDomain content extracted = none) ∧
      (∀ cand, extractPricingForDomain content extracted = some cand →
        cand.guest_post_price ≠ some P) := by
  have hfalse : priceExistsInContent content P = false := by
    cases hpe : priceExistsInContent content P
    · rfl
    · exact absurd (priceExistsInContent_grounded hpe) hng
  refine ⟨hfalse, ?_⟩
  intro extracted hg
  constructor
  · intro hP
    exact extract_primary_reject hg hP hfalse
  · intro cand hcand
    have hfield := extractPricingForDomain_guest_eq hcand
    by_cases hP : P = 0
    · subst hP
      rw [hg] at hfield
      simp only [normalizePrice] at hfield
      rw [hfield]
      simp
    · rw [extract_primary_reject hg hP hfalse] at hcand
      exact absurd hcand (by simp)

/-- Scenario E content: `9999` occurs nowhere in the source text. -/
def scenarioEContent : String := "Guest post offer for example.com. DA 45, traffic 9000."

/-- Scenario E oracle: the AI claims a guest post price of 9999. -/
def scenarioEOracle : OracleOutput :=
  { found := true, guest_post_price := some 9999, link_insertion_price := none,
    sponsored_post_price := none, homepage_link_price := none,
    casino_price := none, casino_accepted := some "yes",
    currency := some "USD", confidence := some "high", notes := none }

/-- Witness for C4 (Scenario E): guest price 9999 with no grounded occurrence
of `9999` in the content is rejected, and no candidate is produced. -/
theorem ungrounded_price_witness :
    priceExistsInContent scenarioEContent 9999 = false ∧
    extractPricingForDomain scenarioEContent scenarioEOracle = none := by
  have hng : ¬ GroundedPriceContext (lcStr scenarioEContent.data) ((Nat.repr 9999).data) := by
    intro h
    obtain ⟨a, b, hab⟩ := groundedPriceContext_occurs h
    have hin := includesL_of_occurs hab
    rw [show includesL (lcStr scenarioEContent.data) ((Nat.repr 9999).data) = false from by decide] at hin
    exact absurd hin (by simp)
  have h := ungrounded_price_produces_no_candidate scenarioEContent 9999 hng
  exact ⟨h.1, (h.2 scenarioEOracle rfl).1 (by decide)⟩

/-! ### The Classifier (src/services/domain-searcher.js, lines 15-365)

`calculateEmailPriority` and `classifyEmail` are pure functions of the four
input strings; the keyword tables are embedded verbatim. -/

/-- An apostrophe character, used inside one negotiation keyword. -/
def apostrophe : String := String.mk [Char.ofNat 39]

/-- Internal email domains — mail FROM these is outbound. -/
def INTERNAL_EMAIL_DOMAINS : List String :=
  ["instalinkoteam.com", "instalinkomailer.com", "instalinko-outreach.com", "instalinkers.com"]

/-- Keywords indicating an invoice/receipt (lowest priority). -/
def INVOICE_KEYWORDS : List String :=
  ["invoice inv-", "receipt", "payment confirmation", "order confirmation",
   "payment received", "billing statement", "order #", "invoice #",
   "receipt #", "payment #", "order details", "inv-"]

/-- Keywords indicating a negotiated/confirmed price (highest priority). -/
def NEGOTIATION_CONFIRMATION_KEYWORDS : List String :=
  ["price agreed", "agreed price", "final price", "we agree", "i agree",
   "deal confirmed", "deal done", "okay for", "ok for", "works for me",
   "sounds good", "accepted", "confirmed", "let" ++ apostrophe ++ "s proceed", "go ahead",
   "send the article", "send content", "send the content", "waiting for article",
   "waiting for content", "send me the article", "please share the article",
   "share the content", "will publish", "can publish", "ready to publish"]

/-- Known reseller/agency domains and names (deprioritised). -/
def RESELLER_INDICATORS : List String :=
  ["snack-media", "snack media", "imperium-comms", "imperium comms",
   "links@snack", "j.clifford@imperium", "messaging-service@post.xero",
   "mashable partners", "mashablepartners", "info@mashablepartners",
   "redhat media", "redhatmedia", "mashum@redhatmedia",
   "entrepreneur media", "entrepreneurmedia", "entrepreneuredition",
   "info@entrepreneuredition", "elena vladimirovna", "elenavladimirovna",
   "nogentech", "info@nogentech", "nogentech media", "nogentech.org",
   "dailybanner1@gmail", "daily banner", "dailybanner",
   "gposting.com", "support@gposting", "gposting",
   "rabbiitfirm", "admin@rabbiitfirm", "rabbi it firm",
   "bloggeroutreach.io", "bloggeroutreach.com", "ejaz@bloggeroutreach",
   "bazoom", "app@mg.bazoom",
   "mamacasinos@gmail.com", "mamacasinos", "mama casinos",
   "markhombarg@gmail.com", "frankheepsy", "benjaminrutschle", "benjamin.marketingoutreach",
   "lancethompson", "gabrielgoldenberg", "lunahazel", "jorjsmith", "dylankohlstadt",
   "lisamoni", "bloggerslisamoni", "randyorten", "harrywin", "jaxonmercer",
   "alicemarketer", "graceanna", "ivanjhon", "arabelajewel", "samuelmax",
   "lillyrose", "wyattmoree", "kateflower", "freyamolly", "norahjasmine",
   "danielmarketer", "danielmatthew", "jamesvince", "lecabrey", "kitroberseo",
   "linkbuilding@", "link-building@", "seoagency", "seo-agency",
   ".outreach@gmail", ".seo@gmail", "marketingoutreach@",
   "service@paypal.com"]

/-- Keywords indicating the email contains a price list. -/
def PRICE_LIST_KEYWORDS : List String :=
  ["full media list", "here are all our sites", "sites where we accept",
   "below is our full", "our sites", "our websites", "price list",
   "our pricing", "per link", "general post", "casino/forex", "casino price",
   "here are our", "all our sites", "media list"]

/-- Outbound inquiry subject patterns — emails the operator sends. -/
def OUTBOUND_INQUIRY_PATTERNS : List String :=
  ["guest post", "sponsored post", "inquiry", "collaborate", "partnership",
   "guest posting", "link insertion", "sponsored content", "paid post",
   "contribute", "content opportunity", "backlink", "article placement",
   "order for", "order on", "placement on", "post on", "article on"]

/-- Body patterns of a webmaster responding to an inquiry. -/
def RESPONSE_BODY_PATTERNS : List String :=
  ["thank you for reaching out", "thanks for your interest", "thanks for contacting",
   "in response to your", "regarding your inquiry", "following up on your",
   "as per your request", "as requested", "here are our rates",
   "our pricing", "our rates", "our prices", "the price is", "we charge",
   "pricing for guest", "cost for guest", "rate for guest", "price for sponsored",
   "per article", "per post", "for one article", "for one post",
   "please find", "attached is", "below are", "here is our", "i can offer",
   "we can offer", "happy to offer", "we would charge", "we accept"]

/-- Subject patterns of a direct pricing response (without `Re:`). -/
def DIRECT_PRICING_SUBJECTS : List String :=
  ["pricing for", "rates for", "price for", "quote for", "offer for",
   "guest post opportunity", "sponsorship opportunity", "advertising rates",
   "media kit", "rate card", "pricing inquiry", "our rates"]

/-- Lower-case letter, as matched by the `[a-z]` classes under the `i` flag
on lower-cased input. -/
def isLowerAlpha (c : Char) : Bool := 'a' ≤ c && c ≤ 'z'

/-- Character kept by `replace(/[^a-z0-9]/g, '')` on lower-cased input. -/
def isAlnumLower (c : Char) : Bool := isLowerAlpha c || c.isDigit

/-- Character of the regex class `[-a-z0-9]` (domain token tail). -/
def isTokenChar (c : Char) : Bool := c = '-' || isLowerAlpha c || c.isDigit

/-- Parse the regex `[a-z0-9][-a-z0-9]*\.[a-z]{2,}` at the head of the
input (greedy, no backtracking is possible for this shape). -/
def parseDomainToken : Str → Option Str
  | [] => none
  | c :: rest =>
    if isLowerAlpha c || c.isDigit then
      let run := rest.takeWhile isTokenChar
      let rest2 := rest.dropWhile isTokenChar
      match rest2 with
      | '.' :: rest3 =>
        let letters := rest3.takeWhile isLowerAlpha
        if 2 ≤ letters.length then some (c :: run ++ '.' :: letters) else none
      | _ => none
    else none

/-- After `on`/`for`/`at`: regex `\s+` then the captured domain token. -/
def afterLinkword (s : Str) : Option Str :=
  match s with
  | [] => none
  | c :: cs =>
    if isSpaceChar c then parseDomainToken (cs.dropWhile isSpaceChar) else none

/-- Try `(?:on|for|at)\s+([a-z0-9][-a-z0-9]*\.[a-z]{2,})` at this position
(the three alternatives start with distinct letters, so at most one fires). -/
def tryOtherDomainAt (s : Str) : Option Str :=
  if ("on".data).isPrefixOf s then afterLinkword (s.drop 2)
  else if ("for".data).isPrefixOf s then afterLinkword (s.drop 3)
  else if ("at".data).isPrefixOf s then afterLinkword (s.drop 2)
  else none

/-- First match of the different-domain regex over the lower-cased subject,
returning the captured domain token. -/
def findOtherDomainToken : Str → Option Str
  | [] => none
  | c :: cs =>
    match tryOtherDomainAt (c :: cs) with
    | some tok => some tok
    | none => findOtherDomainToken cs

/-- `isAboutDifferentDomain` (src/services/domain-searcher.js, lines 223-226):
the subject names a domain token that neither contains nor is contained in
the target domain. -/
def isAboutDifferentDomain (subjectLower targetLower : Str) : Bool :=
  match findOtherDomainToken subjectLower with
  | none => false
  | some tok => !includesL tok targetLower && !includesL targetLower tok

/-- First capture of `/<([^>]+)>/`: the run between a `<` and the next `>`,
when non-empty. -/
def angleCapture : Str → Option Str
  | [] => none
  | c :: rest =>
    if c = '<' then
      let inner := rest.takeWhile (fun d => d ≠ '>')
      let rest2 := rest.dropWhile (fun d => d ≠ '>')
      if !inner.isEmpty && !rest2.isEmpty then some inner else angleCapture rest
    else angleCapture rest

/-- Character of the regex class `[a-z0-9._%+-]` (email local part). -/
def isLocalChar (c : Char) : Bool :=
  isLowerAlpha c || c.isDigit || c = '.' || c = '_' || c = '%' || c = '+' || c = '-'

/-- Character of the regex class `[a-z0-9.-]` (email domain part). -/
def isDomainChar (c : Char) : Bool :=
  isLowerAlpha c || c.isDigit || c = '.' || c = '-'

/-- Split the domain run at the last `.` followed by at least two letters
(the backtracking order of `[a-z0-9.-]+\.[a-z]{2,}` prefers the longest
left part); returns the part before the dot and the captured letter run. -/
def findLastValidDot : Str → Option (Str × Str)
  | [] => none
  | c :: cs =>
    match findLastValidDot cs with
    | some (b, letters) => some (c :: b, letters)
    | none =>
      if c = '.' then
        let letters := cs.takeWhile isLowerAlpha
        if 2 ≤ letters.length then some ([], letters) else none
      else none

/-- Try `([a-z0-9._%+-]+@[a-z0-9.-]+\.[a-z]{2,})` at this position. -/
def matchEmailAt (s : Str) : Option Str :=
  let localPart := s.takeWhile isLocalChar
  let rest := s.dropWhile isLocalChar
  if localPart.isEmpty then none
  else
    match rest with
    | '@' :: rest2 =>
      let run := rest2.takeWhile isDomainChar
      match findLastValidDot run with
      | some (b, letters) =>
        if b.isEmpty then none
        else some (localPart ++ '@' :: b ++ '.' :: letters)
      | none => none
    | _ => none

/-- First match of the bare email-address regex. -/
def emailRegexCapture : Str → Option Str
  | [] => none
  | c :: cs =>
    match matchEmailAt (c :: cs) with
    | some cap => some cap
    | none => emailRegexCapture cs

example : findOtherDomainToken (lcStr "Re: Guest post on mamacasinos.com today".data) =
    some ("mamacasinos.com".data) := by decide
example : findOtherDomainToken "hello".data = none := by decide
example : angleCapture "john doe <john@site.com>".data = some ("john@site.com".data) := by decide
example : emailRegexCapture "daveschererpwi@gmail.com".data = some ("daveschererpwi@gmail.com".data) := by decide
example : emailRegexCapture "no address here".data = none := by decide

/-- The combined `subject + ' ' + body` text, lower-cased. -/
def combinedTextOf (subject body : String) : Str :=
  lcStr (subject.data ++ ' ' :: body.data)

/-- The sender is one of the operator's internal (outbound) mailboxes. -/
def isOutboundSender (fromAddr : String) : Bool :=
  INTERNAL_EMAIL_DOMAINS.any (fun d => includesL (lcStr fromAddr.data) (lcStr d.data))

/-- The subject starts with `re:` or `re ` (reply detection). -/
def isReplySubject (subject : String) : Bool :=
  startsWithL (lcStr subject.data) ("re:".data) || startsWithL (lcStr subject.data) ("re ".data)

/-- The sender or combined text matches a known reseller/agency indicator. -/
def isResellerEmail (fromAddr subject body : String) : Bool :=
  RESELLER_INDICATORS.any (fun p =>
    includesL (lcStr fromAddr.data) (lcStr p.data) ||
    includesL (combinedTextOf subject body) (lcStr p.data))

/-- The combined text contains invoice/receipt vocabulary. -/
def isInvoiceEmail (subject body : String) : Bool :=
  INVOICE_KEYWORDS.any (fun p => includesL (combinedTextOf subject body) (lcStr p.data))

/-- The ordered score adjustments of `calculateEmailPriority` as a function
of the boolean signals, in source order (the source interleaves the signal
computations with the score updates; no signal depends on the score, so the
cascade is factored out here, mirroring the spec's table-driven rule list). -/
def scoreFromSignals (isOutbound isAboutDifferent isReply isInquiryReply domainInSubject
    mentionsDomain hasDirectPricingSubject hasResponsePattern hasNegotiationConfirmation
    senderDomainMatch hasAbbreviatedMatch hasPriceList isReseller isInvoice : Bool) : Int :=
  let score0 : Int := 30
  let score1 := if isOutbound then score0 - 50 else score0
  let score2 := if isAboutDifferent then score1 - 40 else score1
  let score3 :=
    if !isOutbound && isReply && isInquiryReply && domainInSubject then score2 + 50
    else if !isOutbound && isReply && isInquiryReply && !isAboutDifferent then score2 + 40
    else if !isOutbound && !isReply then score2 - 15
    else score2
  let score4 := if !isOutbound && hasDirectPricingSubject && mentionsDomain then score3 + 25 else score3
  let score5 := if !isOutbound && hasResponsePattern && mentionsDomain then score4 + 20 else score4
  let score6 := if !isOutbound && hasNegotiationConfirmation then score5 + 25 else score5
  let score7 :=
    if senderDomainMatch then score6 + 70
    else if hasAbbreviatedMatch then score6 + 30
    else score6
  let score8 := if hasPriceList then score7 + 20 else score7
  let score9 := if isReseller then score8 - 60 else score8
  if isInvoice then score9 - 30 else score9

/-- `calculateEmailPriority` (src/services/domain-searcher.js, lines 195-337):
the priority score of one email for `targetDomain`. -/
def calculateEmailPriority (fromAddr subject body targetDomain : String) : Int :=
  let combinedText := combinedTextOf subject body
  let subjectLower := lcStr subject.data
  let fromLower := lcStr fromAddr.data
  let domainInSubject := includesL subjectLower (lcStr targetDomain.data)
  let domainInBody := includesL combinedText (lcStr targetDomain.data)
  let bodyLower := lcStr body.data
  let targetDomainClean := lcStr (targetDomain.data.filter (fun c => c ≠ '.'))
  let targetDomainBase := lcStr (targetDomain.data.takeWhile (fun c => c ≠ '.'))
  let senderClean := fromLower.filter isAlnumLower
  let senderEmail := ((angleCapture fromLower).orElse (fun _ => emailRegexCapture fromLower)).getD fromLower
  let senderUsername := (senderEmail.takeWhile (fun c => c ≠ '@')).filter isAlnumLower
  scoreFromSignals
    (isOutboundSender fromAddr)
    (isAboutDifferentDomain subjectLower (lcStr targetDomain.data))
    (isReplySubject subject)
    (OUTBOUND_INQUIRY_PATTERNS.any (fun p => includesL subjectLower (lcStr p.data)))
    domainInSubject
    (domainInSubject || domainInBody)
    (DIRECT_PRICING_SUBJECTS.any (fun p => includesL subjectLower (lcStr p.data)))
    (RESPONSE_BODY_PATTERNS.any (fun p => includesL bodyLower (lcStr p.data)))
    (NEGOTIATION_CONFIRMATION_KEYWORDS.any (fun p => includesL bodyLower (lcStr p.data)))
    (includesL fromLower (lcStr targetDomain.data) || includesL senderClean targetDomainClean)
    (if !isOutboundSender fromAddr && decide (3 ≤ targetDomainBase.length) then
      includesL senderUsername targetDomainBase ||
      (List.range targetDomainBase.length).any
        (fun len => decide (3 ≤ len) && includesL senderUsername (targetDomainBase.take len))
     else false)
    (PRICE_LIST_KEYWORDS.any (fun p => includesL combinedText (lcStr p.data)))
    (isResellerEmail fromAddr subject body)
    (isInvoiceEmail subject body)

/-- The classification returned by `classifyEmail`. -/
structure Classification where
  type : String
  score : Int
deriving DecidableEq

/-- `classifyEmail` (src/services/domain-searcher.js, lines 347-365). -/
def classifyEmail (fromAddr subject body targetDomain : String) : Classification :=
  let score := calculateEmailPriority fromAddr subject body targetDomain
  let isOutbound := isOutboundSender fromAddr
  let ty :=
    if isOutbound then "outbound"
    else if 70 ≤ score then "direct-webmaster"
    else if 50 ≤ score then "price-list"
    else if 30 ≤ score then "unknown"
    else if 10 ≤ score then "reseller"
    else "invoice"
  ⟨ty, score⟩

/-- Spec 4.2: the tier as a function of the outbound flag and the final
score alone. -/
def tierFromScore (outbound : Bool) (score : Int) : String :=
  if outbound then "outbound"
  else if 70 ≤ score then "direct-webmaster"
  else if 50 ≤ score then "price-list"
  else if 30 ≤ score then "unknown"
  else if 10 ≤ score then "reseller"
  else "invoice"

/-- C8: the tier assigned by `classifyEmail` is a total function of the
outbound flag and the final score, with the spec's thresholds: outbound maps
to `outbound`; otherwise `>= 70` to `direct-webmaster`, `>= 50` to
`price-list`, `>= 30` to `unknown`, `>= 10` to `reseller`, lower scores to
`invoice`. -/
theorem classifyEmail_type_is_tierFromScore (fromAddr subject body targetDomain : String) :
    (classifyEmail fromAddr subject body targetDomain).type =
      tierFromScore (isOutboundSender fromAddr)
        (classifyEmail fromAddr subject body targetDomain).score := rfl

example : classifyEmail "webmaster@example.com" "Re: Guest post on example.com"
    "Guest post price: $200, casino not accepted" "example.com" =
    ⟨"direct-webmaster", 175⟩ := by decide

/-- C5 counterexample: the sender `linkbuilding@example.com` literally
contains the target domain `example.com` and is not an outbound mailbox, yet
the reseller indicator `linkbuilding@` (-60) and the unsolicited-contact
penalty (-15) drive the final score to 25 < 70, and the email tiers
`reseller`, not `direct-webmaster`. -/
theorem senderContains_below70_counterexample :
    includesL (lcStr "linkbuilding@example.com".data) (lcStr "example.com".data) = true ∧
    isOutboundSender "linkbuilding@example.com" = false ∧
    classifyEmail "linkbuilding@example.com" "hello" "" "example.com" = ⟨"reseller", 25⟩ := by
  decide

/-- C5 (amended): a sender address literally containing the target domain
always scores at least 70 and tiers `direct-webmaster`, provided the sender
is not an outbound mailbox, the subject is a reply, and none of the
penalising signals fires (no different-domain token in the subject, no
reseller indicator, no invoice vocabulary); a sender that is an outbound
mailbox always tiers `outbound`, regardless of score. -/
theorem senderContains_direct_webmaster (fromAddr subject body targetDomain : String) :
    (isOutboundSender fromAddr = false →
      includesL (lcStr fromAddr.data) (lcStr targetDomain.data) = true →
      isReplySubject subject = true →
      isAboutDifferentDomain (lcStr subject.data) (lcStr targetDomain.data) = false →
      isResellerEmail fromAddr subject body = false →
      isInvoiceEmail subject body = false →
      70 ≤ calculateEmailPriority fromAddr subject body targetDomain ∧
      (classifyEmail fromAddr subject body targetDomain).type = "direct-webmaster") ∧
    (isOutboundSender fromAddr = true →
      (classifyEmail fromAddr subject body targetDomain).type = "outbound") := by
  constructor
  · intro hout hcontains hreply hdiff hres hinv
    have hbase : ∀ b4 b5 b6 b7 b8 b9 b11 b12 : Bool,
        70 ≤ scoreFromSignals false false true b4 b5 b6 b7 b8 b9 true b11 b12 false false := by
      decide
    have hscore : 70 ≤ calculateEmailPriority fromAddr subject body targetDomain := by
      simp only [calculateEmailPriority]
      rw [hout, hreply, hdiff, hres, hinv, hcontains]
      simp only [Bool.true_or]
      exact hbase _ _ _ _ _ _ _ _
    refine ⟨hscore, ?_⟩
    simp only [classifyEmail, hout, Bool.false_eq_true, if_false, if_pos hscore]
  · intro hout
    simp only [classifyEmail, hout, if_true]

/-- Witness for the C5 theorem: `webmaster@example.com` replying with
subject `re: hello` for target `example.com` satisfies every hypothesis and
lands in the `direct-webmaster` tier, and an internal sender lands in
`outbound`. -/
theorem senderContains_direct_webmaster_witness :
    70 ≤ calculateEmailPriority "webmaster@example.com" "re: hello" "" "example.com" ∧
    (classifyEmail "webmaster@example.com" "re: hello" "" "example.com").type =
      "direct-webmaster" ∧
    (classifyEmail "info@instalinkoteam.com" "re: hello" "" "example.com").type =
      "outbound" := by
  have h := senderContains_direct_webmaster "webmaster@example.com" "re: hello" "" "example.com"
  have h2 := senderContains_direct_webmaster "info@instalinkoteam.com" "re: hello" "" "example.com"
  obtain ⟨hs, ht⟩ := h.1 (by decide) (by decide) (by decide) (by decide) (by decide) (by decide)
  exact ⟨hs, ht, h2.2 (by decide)⟩

/-! ### `processEmailForDomain` (src/services/domain-searcher.js, lines 618-768)

Builds the combined content from the email header block, body, attachment
texts and spreadsheet links, then either uses a structured sheet hit
directly (bypassing the AI oracle) or falls back to the AI extraction path.
Collaborator outcomes (`extractDomainPricingFromSheet`, `parseAttachment`,
`parseGoogleSheet`, the AI oracle) are passed in as explicit data.  The
`source_email` field (contact resolution via `extractWebmasterContact`) is
not constrained by any claim and is left out of the candidate record. -/

/-- Result row of `extractDomainPricingFromSheet` for the target domain. -/
structure SheetData where
  domain : String
  sheet : String
  guest_post_price : Option Nat
  general_price : Option Nat
  casino_price : Option Nat
  finance_price : Option Nat
  homepage_price : Option Nat
  link_insertion_price : Option Nat
  raw_data : String
deriving DecidableEq

/-- Prefetched email data. -/
structure EmailData where
  sender : String
  subject : String
  body : String
deriving DecidableEq

/-- One attachment together with its collaborator outcomes: the structured
lookup result (for tabular files) and the plain parsed text. -/
structure AttachmentModel where
  filename : String
  lookup : Option SheetData
  parsedText : Option String
deriving DecidableEq

/-- The pricing result object returned for one email. -/
structure PriceCandidate where
  domain : String
  guest_post_price : Option Nat
  link_insertion_price : Option Nat
  sponsored_post_price : Option Nat
  homepage_link_price : Option Nat
  casino_price : Option Nat
  casino_accepted : String
  currency : String
  subject : String
  account : String
  confidence : String
  notes : Option String
deriving DecidableEq

/-- JS `a || b` on nullable prices. -/
def jsOrNat (a b : Option Nat) : Option Nat := if truthyNat a then a else b

/-- The structured-hit guard `extracted.casino_price || extracted.general_price
|| extracted.guest_post_price`. -/
def sheetHasCorePrice (sd : SheetData) : Bool :=
  truthyNat sd.casino_price || truthyNat sd.general_price || truthyNat sd.guest_post_price

/-- `filename.split('.').pop().toLowerCase()`. -/
def extOf (filename : String) : String :=
  String.mk (lcStr ((filename.data.reverse.takeWhile (fun c => c ≠ '.')).reverse))

/-- One `if (extracted.x) combinedContent += label + x + newline` line. -/
def priceLine (label : String) (v : Option Nat) : Str :=
  match v with
  | some n => if n != 0 then (label ++ Nat.repr n ++ "\n").data else []
  | none => []

/-- The structured-pricing block appended to the combined content. -/
def structuredBlock (filename : String) (sd : SheetData) : Str :=
  ("\n\n--- STRUCTURED PRICING DATA FROM " ++ filename ++ " ---\n").data ++
  ("Domain: " ++ sd.domain ++ "\n").data ++
  priceLine "Guest Post Price: " sd.guest_post_price ++
  priceLine "General Niche Price: " sd.general_price ++
  priceLine "Casino Price: " sd.casino_price ++
  priceLine "Finance/Crypto Price: " sd.finance_price ++
  priceLine "Homepage Link Price: " sd.homepage_price ++
  priceLine "Link Insertion Price: " sd.link_insertion_price ++
  ("Raw Data: " ++ sd.raw_data ++ "\n").data

/-- Fallback text block of one attachment (skipped when the parsed text is
missing or empty, the JS-falsy cases). -/
def attachmentTextBlock (filename : String) (t : Option String) : Str :=
  match t with
  | some s => if s.data.isEmpty then [] else ("\n\n--- Attachment: " ++ filename ++ " ---\n" ++ s).data
  | none => []

/-- The per-attachment step of the loop in lines 626-667: tabular files try
the structured lookup first (a core-price hit replaces the running
`structuredSheetData` and appends the structured block), everything else
appends its parsed text. -/
def attachmentStep (acc : Str × Option SheetData) (att : AttachmentModel) :
    Str × Option SheetData :=
  if (["xlsx", "xls", "csv"] : List String).contains (extOf att.filename) then
    match att.lookup with
    | some sd =>
      if sheetHasCorePrice sd then
        (acc.1 ++ structuredBlock att.filename sd, some sd)
      else
        (acc.1 ++ attachmentTextBlock att.filename att.parsedText, acc.2)
    | none => (acc.1 ++ attachmentTextBlock att.filename att.parsedText, acc.2)
  else
    (acc.1 ++ attachmentTextBlock att.filename att.parsedText, acc.2)

/-- Google-sheet text block (lines 670-680). -/
def gsheetBlock (t : Option String) : Str :=
  match t with
  | some s => if s.data.isEmpty then [] else ("\n\n--- Google Sheet ---\n" ++ s).data
  | none => []

/-- Header block plus body (line 622). -/
def baseContent (emailData : EmailData) : Str :=
  ("From: " ++ emailData.sender ++ "\nSubject: " ++ emailData.subject ++
   "\n\nBody:\n" ++ emailData.body).data

/-- The combined content after attachments and google-sheet links. -/
def combinedContentOf (emailData : EmailData) (attachments : List AttachmentModel)
    (gsheetTexts : List (Option String)) : Str :=
  (gsheetTexts.foldl (fun acc t => acc ++ gsheetBlock t)
    (attachments.foldl attachmentStep (baseContent emailData, none)).1)

/-- The surviving structured sheet hit (last tabular attachment whose lookup
passed the core-price guard). -/
def structuredResultOf (emailData : EmailData) (attachments : List AttachmentModel) :
    Option SheetData :=
  (attachments.foldl attachmentStep (baseContent emailData, none)).2

/-- `indexOf` over character lists, JS semantics (-1 when absent). -/
def indexOfFrom : Str → Str → Nat → Int
  | hay, needle, i =>
    if needle.isPrefixOf hay then Int.ofNat i
    else match hay with
      | [] => -1
      | _ :: rest => indexOfFrom rest needle (i + 1)

/-- Truncation to the 50000-character budget, centred on the first
occurrence of the target domain (lines 716-729). -/
def truncateContent (content : Str) (targetLower : Str) : Str :=
  if 50000 < content.length then
    let domainIndex := indexOfFrom (lcStr content) targetLower 0
    if 25000 < domainIndex then
      (content.drop (max 0 (domainIndex - 25000)).toNat).take 50000
    else content.take 50000
  else content

/-- The AI extraction path of `processEmailForDomain` (lines 715-767). -/
def processEmailAIPath (account : String) (emailData : EmailData) (combinedContent : Str)
    (oracle : OracleOutput) (targetDomain : String) : Option PriceCandidate :=
  let truncated := truncateContent combinedContent (lcStr targetDomain.data)
  match extractPricingForDomain (String.mk truncated) oracle with
  | none => none
  | some pricingData =>
    let hasPrice := truthyNat pricingData.guest_post_price ||
      truthyNat pricingData.link_insertion_price ||
      truthyNat pricingData.sponsored_post_price ||
      truthyNat pricingData.homepage_link_price ||
      truthyNat pricingData.casino_price
    if !hasPrice then none
    else some {
      domain := targetDomain,
      guest_post_price := pricingData.guest_post_price,
      link_insertion_price := pricingData.link_insertion_price,
      sponsored_post_price := pricingData.sponsored_post_price,
      homepage_link_price := pricingData.homepage_link_price,
      casino_price := pricingData.casino_price,
      casino_accepted := jsOrString (some pricingData.casino_accepted) "yes",
      currency := jsOrString (some pricingData.currency) "USD",
      subject := emailData.subject,
      account := account,
      confidence := jsOrString (some pricingData.confidence) "medium",
      notes := pricingData.notes }

/-- `processEmailForDomain` (lines 618-768).  The AI oracle's response for
the truncated content is passed as `oracle`. -/
def processEmailForDomain (account : String) (emailData : EmailData)
    (attachments : List AttachmentModel) (gsheetTexts : List (Option String))
    (oracle : OracleOutput) (targetDomain : String) : Option PriceCandidate :=
  let combinedContent := combinedContentOf emailData attachments gsheetTexts
  if !includesL (lcStr combinedContent) (lcStr targetDomain.data) then none
  else
    match structuredResultOf emailData attachments with
    | some sd =>
      if sheetHasCorePrice sd then
        let guestPostPrice := jsOrNat sd.guest_post_price (jsOrNat sd.general_price none)
        let casinoPrice := jsOrNat sd.casino_price guestPostPrice
        some {
          domain := targetDomain,
          guest_post_price := guestPostPrice,
          link_insertion_price := jsOrNat sd.link_insertion_price none,
          sponsored_post_price := none,
          homepage_link_price := jsOrNat sd.homepage_price none,
          casino_price := casinoPrice,
          casino_accepted := "yes",
          currency := "EUR",
          subject := emailData.subject,
          account := account,
          confidence := "high",
          notes := some ("Extracted from sheet. Raw: " ++ sd.raw_data) }
      else processEmailAIPath account emailData combinedContent oracle targetDomain
    | none => processEmailAIPath account emailData combinedContent oracle targetDomain

/-- Sheet row carrying only a link-insertion price (no casino, general or
guest-post column). -/
def sheetLinkOnly : SheetData :=
  { domain := "example.com", sheet := "Sheet1", guest_post_price := none,
    general_price := none, casino_price := none, finance_price := none,
    homepage_price := none, link_insertion_price := some 50, raw_data := "li" }

/-- Sample email whose body mentions the target domain and a grounded price. -/
def emailWithBodyPrice : EmailData :=
  { sender := "seller@lists.net", subject := "prices",
    body := "pricing for example.com is $100" }

/-- Oracle answer used when the AI path runs on the sample email. -/
def oracleUsd100 : OracleOutput :=
  { found := true, guest_post_price := some 100, link_insertion_price := none,
    sponsored_post_price := none, homepage_link_price := none,
    casino_price := none, casino_accepted := some "yes",
    currency := some "USD", confidence := some "medium", notes := none }

/-- C10 counterexample: the structured lookup yields a numeric price (a
link-insertion price of 50) and the target domain appears in the combined
content, yet the returned candidate has currency `USD` and confidence
`medium`: a link-insertion-only hit fails the core-price guard, so the AI
path is used instead of the high-confidence EUR sheet branch. -/
theorem structuredSheet_linkOnly_counterexample :
    truthyNat sheetLinkOnly.link_insertion_price = true ∧
    includesL (lcStr (combinedContentOf emailWithBodyPrice
      [⟨"list.csv", some sheetLinkOnly, none⟩] []))
      (lcStr "example.com".data) = true ∧
    (processEmailForDomain "acct" emailWithBodyPrice
      [⟨"list.csv", some sheetLinkOnly, none⟩] [] oracleUsd100 "example.com").map
      (fun c => (c.currency, c.confidence)) = some ("USD", "medium") := by decide

/-- C10 (amended): whenever the structured spreadsheet lookup survives with
a casino, general-niche or guest-post price (other numeric fields alone do
not take this branch) and the target domain appears in the combined content,
the returned candidate has `casino_accepted = "yes"`, `currency = "EUR"`,
`confidence = "high"`, its guest price is the sheet's guest-post price
defaulted to the general price, and its casino price defaults to that guest
post price when the sheet has no casino-specific column. -/
theorem structuredSheet_candidate_fields (account : String) (emailData : EmailData)
    (attachments : List AttachmentModel) (gsheetTexts : List (Option String))
    (oracle : OracleOutput) (targetDomain : String) (sd : SheetData)
    (hsd : structuredResultOf emailData attachments = some sd)
    (hcore : sheetHasCorePrice sd = true)
    (hdom : includesL (lcStr (combinedContentOf emailData attachments gsheetTexts))
      (lcStr targetDomain.data) = true) :
    ∃ c, processEmailForDomain account emailData attachments gsheetTexts oracle targetDomain =
        some c ∧
      c.casino_accepted = "yes" ∧ c.currency = "EUR" ∧ c.confidence = "high" ∧
      c.guest_post_price = jsOrNat sd.guest_post_price (jsOrNat sd.general_price none) ∧
      c.casino_price = jsOrNat sd.casino_price c.guest_post_price ∧
      (truthyNat sd.casino_price = false → c.casino_price = c.guest_post_price) := by
  have hmain : processEmailForDomain account emailData attachments gsheetTexts oracle targetDomain =
      some { domain := targetDomain,
             guest_post_price := jsOrNat sd.guest_post_price (jsOrNat sd.general_price none),
             link_insertion_price := jsOrNat sd.link_insertion_price none,
             sponsored_post_price := none,
             homepage_link_price := jsOrNat sd.homepage_price none,
             casino_price := jsOrNat sd.casino_price
               (jsOrNat sd.guest_post_price (jsOrNat sd.general_price none)),
             casino_accepted := "yes", currency := "EUR", subject := emailData.subject,
             account := account, confidence := "high",
             notes := some ("Extracted from sheet. Raw: " ++ sd.raw_data) } := by
    simp only [processEmailForDomain, hdom, hsd, hcore, Bool.not_true, Bool.false_eq_true,
      if_false, if_true]
  exact ⟨_, hmain, rfl, rfl, rfl, rfl, rfl, fun hn => by simp [jsOrNat, hn]⟩

/-- Sheet row with a guest-post price but no casino column. -/
def sheetGuestOnly : SheetData :=
  { domain := "example.com", sheet := "Prices", guest_post_price := some 200,
    general_price := none, casino_price := none, finance_price := none,
    homepage_price := none, link_insertion_price := none, raw_data := "gp" }

/-- Witness for the C10 theorem: a guest-post-only sheet hit produces the
high-confidence EUR candidate with the casino price defaulted to the guest
post price. -/
theorem structuredSheet_candidate_fields_witness :
    ∃ c, processEmailForDomain "acct" emailWithBodyPrice
        [⟨"prices.xlsx", some sheetGuestOnly, none⟩] [] oracleUsd100 "example.com" =
        some c ∧
      c.casino_accepted = "yes" ∧ c.currency = "EUR" ∧ c.confidence = "high" ∧
      c.guest_post_price = some 200 ∧ c.casino_price = some 200 := by
  obtain ⟨c, hc, hca, hcur, hconf, hg, hcp, hdef⟩ :=
    structuredSheet_candidate_fields "acct" emailWithBodyPrice
      [⟨"prices.xlsx", some sheetGuestOnly, none⟩] [] oracleUsd100 "example.com"
      sheetGuestOnly (by decide) (by decide) (by decide)
  refine ⟨c, hc, hca, hcur, hconf, ?_, ?_⟩
  · rw [hg]; decide
  · rw [hdef (by decide), hg]; decide

/-! ### `searchDomain` tier processing and selection
(src/services/domain-searcher.js, lines 500-607)

After classification, `searchDomain` sorts the emails by (priority score
desc, then date desc), partitions them into tiers, extracts prices tier by
tier with per-sender deduplication and caps, stops after the
direct-webmaster tier once it has produced at least one price, and finally
picks the highest-score (latest-date tie-break) candidate.  The outcome of
`processEmailForDomain` for each email is carried as `extractResult`. -/

/-- One classified email, with the extraction outcome it would produce. -/
structure ClassifiedEmail where
  sender : String
  classification : String
  priorityScore : Int
  emailDate : Int
  extractResult : Option PriceCandidate
deriving DecidableEq

/-- A price found in one email, tagged with the email's score and date. -/
structure FoundPrice where
  result : PriceCandidate
  priorityScore : Int
  classification : String
  emailDate : Int
deriving DecidableEq

/-- Stable insertion preserving the order of ties (`before` asks whether the
first argument strictly precedes the second). -/
def insertBy (before : α → α → Bool) (a : α) : List α → List α
  | [] => [a]
  | b :: bs => if before b a then b :: insertBy before a bs else a :: b :: bs

/-- Stable sort matching the JS `Array.prototype.sort` with a comparator. -/
def sortByJS (before : α → α → Bool) : List α → List α
  | [] => []
  | a :: as => insertBy before a (sortByJS before as)

/-- The email comparator (lines 502-516): priority score descending, then
date descending (both comparator branches return the date difference). -/
def emailBefore (a b : ClassifiedEmail) : Bool :=
  decide (b.priorityScore < a.priorityScore) ||
  (decide (a.priorityScore = b.priorityScore) && decide (b.emailDate < a.emailDate))

/-- The found-price comparator (lines 590-600): score descending, recency
as tie-break only. -/
def foundBefore (a b : FoundPrice) : Bool :=
  decide (b.priorityScore < a.priorityScore) ||
  (decide (a.priorityScore = b.priorityScore) && decide (b.emailDate < a.emailDate))

/-- `senderKey` (line 547): the angle-bracket address of the lower-cased
sender, or the whole lower-cased sender. -/
def senderKeyOf (sender : String) : Str :=
  match angleCapture (lcStr sender.data) with
  | some inner => inner
  | none => lcStr sender.data

/-- The found-price record pushed for one email (lines 563-568). -/
def mkFoundPrice (e : ClassifiedEmail) (r : PriceCandidate) : FoundPrice :=
  { result := r, priorityScore := e.priorityScore,
    classification := e.classification, emailDate := e.emailDate }

/-- The per-tier loop (lines 537-575): stop once 5 sources produced prices
(and something was found) or 15 emails were tried; skip senders that already
produced a price; an extraction failure (null or exception) adds nothing. -/
def tierLoop : List ClassifiedEmail → List Str → Nat → Nat → List FoundPrice → List FoundPrice
  | [], _, _, _, acc => acc
  | e :: rest, senders, sources, tried, acc =>
    if 5 ≤ sources ∧ acc ≠ [] then acc
    else if 15 ≤ tried then acc
    else if senders.contains (senderKeyOf e.sender) then
      tierLoop rest senders sources tried acc
    else
      match e.extractResult with
      | some r => tierLoop rest (senders ++ [senderKeyOf e.sender]) (sources + 1) (tried + 1)
          (acc ++ [mkFoundPrice e r])
      | none => tierLoop rest senders sources (tried + 1) acc

/-- The direct-webmaster tier: sorted emails with score at least 70. -/
def dwTier (emails : List ClassifiedEmail) : List ClassifiedEmail :=
  (sortByJS emailBefore emails).filter (fun e => decide (70 ≤ e.priorityScore))

/-- The price-list tier: sorted emails with score in [40, 70). -/
def plTier (emails : List ClassifiedEmail) : List ClassifiedEmail :=
  (sortByJS emailBefore emails).filter
    (fun e => decide (40 ≤ e.priorityScore) && decide (e.priorityScore < 70))

/-- The other tier: sorted emails with score below 40. -/
def otherTier (emails : List ClassifiedEmail) : List ClassifiedEmail :=
  (sortByJS emailBefore emails).filter (fun e => decide (e.priorityScore < 40))

/-- All prices gathered across the tiers (lines 524-582): the loop breaks
out after the direct-webmaster tier as soon as it produced at least one
price, so lower tiers are not consulted in that case. -/
def collectFoundPrices (emails : List ClassifiedEmail) : List FoundPrice :=
  let f1 := tierLoop (dwTier emails) [] 0 0 []
  if !f1.isEmpty then f1
  else
    let f2 := tierLoop (plTier emails) [] 0 0 f1
    tierLoop (otherTier emails) [] 0 0 f2

/-- The final selection (lines 584-607): highest priority score, ties broken
by latest email date. -/
def searchDomainSelect (emails : List ClassifiedEmail) : Option FoundPrice :=
  let found := collectFoundPrices emails
  if found.isEmpty then none
  else (sortByJS foundBefore found).head?

theorem insertBy_mem {before : α → α → Bool} {a x : α} :
    ∀ {l : List α}, x ∈ insertBy before a l ↔ x = a ∨ x ∈ l := by
  intro l
  induction l with
  | nil => simp [insertBy]
  | cons b bs ih =>
    unfold insertBy
    split
    · rw [List.mem_cons, ih]
      constructor
      · rintro (h | h | h)
        · exact Or.inr (List.mem_cons_self b bs) |>.imp_left id |>.imp id id |>.elim Or.inl
            (fun _ => Or.inr (List.mem_cons.mpr (Or.inl h)))
        · exact Or.inl h
        · exact Or.inr (List.mem_cons.mpr (Or.inr h))
      · rintro (h | h)
        · exact Or.inr (Or.inl h)
        · rcases List.mem_cons.mp h with h | h
          · exact Or.inl h
          · exact Or.inr (Or.inr h)
    · rw [List.mem_cons, List.mem_cons]

theorem sortByJS_mem {before : α → α → Bool} {x : α} :
    ∀ {l : List α}, x ∈ sortByJS before l ↔ x ∈ l := by
  intro l
  induction l with
  | nil => simp [sortByJS]
  | cons a as ih =>
    unfold sortByJS
    rw [insertBy_mem, List.mem_cons, ih]

/-- Every price gathered by the tier loop either was already in the
accumulator or comes from an email of the processed tier. -/
theorem tierLoop_mem : ∀ (emails : List ClassifiedEmail) (senders : List Str)
    (sources tried : Nat) (acc : List FoundPrice) (f : FoundPrice),
    f ∈ tierLoop emails senders sources tried acc →
    f ∈ acc ∨ ∃ e ∈ emails, ∃ r, e.extractResult = some r ∧ f = mkFoundPrice e r
  | [], _, _, _, _, f, hf => Or.inl hf
  | e :: rest, senders, sources, tried, acc, f, hf => by
    unfold tierLoop at hf
    split at hf
    · exact Or.inl hf
    · split at hf
      · exact Or.inl hf
      · split at hf
        · rcases tierLoop_mem rest senders sources tried acc f hf with h | ⟨e', he', hr⟩
          · exact Or.inl h
          · exact Or.inr ⟨e', List.mem_cons_of_mem _ he', hr⟩
        · split at hf
          · rcases tierLoop_mem rest _ _ _ _ f hf with h | ⟨e', he', hr⟩
            · rcases List.mem_append.mp h with h | h
              · exact Or.inl h
              · rw [List.mem_singleton] at h
                subst h
                exact Or.inr ⟨e, List.mem_cons_self e rest, _, by assumption, rfl⟩
            · exact Or.inr ⟨e', List.mem_cons_of_mem _ he', hr⟩
          · rcases tierLoop_mem rest senders sources (tried + 1) acc f hf with h | ⟨e', he', hr⟩
            · exact Or.inl h
            · exact Or.inr ⟨e', List.mem_cons_of_mem _ he', hr⟩

/-- C1: once the direct-webmaster tier (priority score at least 70) has
produced at least one price, lower tiers are not consulted — the gathered
prices are exactly the direct-webmaster tier's prices, every gathered price
carries a score of at least 70, and the final selection (highest score,
latest date as tie-break) returns one of those direct-webmaster prices,
regardless of the email dates of lower-tier candidates. -/
theorem directWebmaster_tier_wins (emails : List ClassifiedEmail)
    (h : tierLoop (dwTier emails) [] 0 0 [] ≠ []) :
    collectFoundPrices emails = tierLoop (dwTier emails) [] 0 0 [] ∧
    (∀ g ∈ collectFoundPrices emails, 70 ≤ g.priorityScore) ∧
    ∃ best, searchDomainSelect emails = some best ∧
      best ∈ tierLoop (dwTier emails) [] 0 0 [] ∧ 70 ≤ best.priorityScore := by
  have hne : (tierLoop (dwTier emails) [] 0 0 []).isEmpty = false := by
    cases heq : tierLoop (dwTier emails) [] 0 0 [] with
    | nil => exact absurd heq h
    | cons a as => rfl
  have hcollect : collectFoundPrices emails = tierLoop (dwTier emails) [] 0 0 [] := by
    simp only [collectFoundPrices, hne, Bool.not_false, if_true]
  have hscore : ∀ g ∈ tierLoop (dwTier emails) [] 0 0 [], 70 ≤ g.priorityScore := by
    intro g hg
    rcases tierLoop_mem (dwTier emails) [] 0 0 [] g hg with hmem | ⟨e, he, r, -, hfr⟩
    · exact absurd hmem (List.not_mem_nil g)
    · have := (List.mem_filter.mp he).2
      rw [hfr]
      simpa [mkFoundPrice] using this
  refine ⟨hcollect, by rw [hcollect]; exact hscore, ?_⟩
  have hsel : searchDomainSelect emails =
      (sortByJS foundBefore (tierLoop (dwTier emails) [] 0 0 [])).head? := by
    simp only [searchDomainSelect, hcollect, hne, Bool.false_eq_true, if_false]
  cases hsort : sortByJS foundBefore (tierLoop (dwTier emails) [] 0 0 []) with
  | nil =>
    exfalso
    cases heq : tierLoop (dwTier emails) [] 0 0 [] with
    | nil => exact h heq
    | cons a as =>
      have : a ∈ sortByJS foundBefore (tierLoop (dwTier emails) [] 0 0 []) := by
        rw [sortByJS_mem, heq]
        exact List.mem_cons_self a as
      rw [hsort] at this
      exact absurd this (List.not_mem_nil a)
  | cons b bs =>
    have hbmem : b ∈ tierLoop (dwTier emails) [] 0 0 [] := by
      rw [← @sortByJS_mem _ foundBefore, hsort]
      exact List.mem_cons_self b bs
    refine ⟨b, ?_, hbmem, hscore b hbmem⟩
    rw [hsel, hsort]
    rfl

/-- Demo candidate produced by the direct-webmaster email. -/
def demoCandA : PriceCandidate :=
  { domain := "example.com", guest_post_price := some 300, link_insertion_price := none,
    sponsored_post_price := none, homepage_link_price := none, casino_price := some 300,
    casino_accepted := "yes", currency := "USD", subject := "re: guest post on example.com",
    account := "a1", confidence := "high", notes := none }

/-- Demo candidate produced by the newer, lower-tier reseller email. -/
def demoCandB : PriceCandidate :=
  { domain := "example.com", guest_post_price := some 50, link_insertion_price := none,
    sponsored_post_price := none, homepage_link_price := none, casino_price := none,
    casino_accepted := "yes", currency := "USD", subject := "our sites",
    account := "a1", confidence := "medium", notes := none }

/-- Direct-webmaster email (score 100, older date). -/
def demoDW : ClassifiedEmail :=
  { sender := "owner@example.com", classification := "direct-webmaster",
    priorityScore := 100, emailDate := 1000, extractResult := some demoCandA }

/-- Price-list email (score 50) dated later than the webmaster email. -/
def demoPL : ClassifiedEmail :=
  { sender := "seller@lists.net", classification := "price-list",
    priorityScore := 50, emailDate := 2000, extractResult := some demoCandB }

/-- The demo inbox: a direct-webmaster email and a newer price-list email. -/
def demoEmails : List ClassifiedEmail := [demoDW, demoPL]

/-- Witness for the C1 theorem: with a direct-webmaster price available, the
selection returns it even though the price-list email is dated later. -/
theorem directWebmaster_tier_wins_witness :
    tierLoop (dwTier demoEmails) [] 0 0 [] ≠ [] ∧
    collectFoundPrices demoEmails = tierLoop (dwTier demoEmails) [] 0 0 [] ∧
    searchDomainSelect demoEmails = some (mkFoundPrice demoDW demoCandA) ∧
    70 ≤ (mkFoundPrice demoDW demoCandA).priorityScore := by
  have h : tierLoop (dwTier demoEmails) [] 0 0 [] ≠ [] := by decide
  obtain ⟨hc, -, -⟩ := directWebmaster_tier_wins demoEmails h
  exact ⟨h, hc, by decide, by decide⟩

/-! ### Task scheduler and store (src/server.js, src/db.js)

Tasks, task domains, the queue-advance query, crash recovery, the cancel
endpoint and the progress counters are embedded over explicit row lists.
Timestamps other than `created_at` (used by the `ORDER BY`) are not
modelled; `created_at` is a creation counter. -/

/-- Task status values. -/
inductive TaskStatus
  | pending | queued | running | paused | completed | cancelled
deriving DecidableEq

/-- Task-domain status values. -/
inductive DomStatus
  | pending | running | completed | no_result | failed | skipped
deriving DecidableEq

/-- One row of the `tasks` table (status, creation order, counters). -/
structure TaskRow where
  id : Nat
  status : TaskStatus
  createdAt : Nat
  completed_domains : Int
  successful_domains : Int
  no_result_domains : Int
  failed_domains : Int
deriving DecidableEq

/-- One row of the `task_domains` table. -/
structure DomRow where
  id : Nat
  taskId : Nat
  status : DomStatus
deriving DecidableEq

/-- The persisted store. -/
structure Db where
  tasks : List TaskRow
  doms : List DomRow
deriving DecidableEq

/-- `getTasks({status})` (src/db.js, lines 684-716): filter by status,
`ORDER BY created_at DESC` (newest first). -/
def getTasksByStatus (tasks : List TaskRow) (st : TaskStatus) : List TaskRow :=
  sortByJS (fun a b => decide (b.createdAt < a.createdAt)) (tasks.filter (fun t => t.status = st))

/-- `startNextQueuedTask` (src/server.js, lines 189-197): the task whose id
is passed to `runTask` when the run slot frees — the head of the
queued-task listing. -/
def startNextQueuedTaskChoice (tasks : List TaskRow) : Option Nat :=
  ((getTasksByStatus tasks TaskStatus.queued).head?).map TaskRow.id

/-- Queued task created first (older). -/
def queuedTaskOld : TaskRow :=
  { id := 1, status := TaskStatus.queued, createdAt := 10,
    completed_domains := 0, successful_domains := 0, no_result_domains := 0, failed_domains := 0 }

/-- Queued task created later (newer). -/
def queuedTaskNew : TaskRow :=
  { id := 2, status := TaskStatus.queued, createdAt := 20,
    completed_domains := 0, successful_domains := 0, no_result_domains := 0, failed_domains := 0 }

/-- C2 failing input: with two queued tasks, `startNextQueuedTask` starts
the newest-created one (id 2), not the oldest (id 1): `getTasks` orders by
`created_at DESC` and the code takes `tasks[0]`, although its own comment
says "Find the oldest queued task". -/
theorem startNextQueuedTask_newest_not_oldest :
    queuedTaskOld.status = TaskStatus.queued ∧
    queuedTaskNew.status = TaskStatus.queued ∧
    queuedTaskOld.createdAt < queuedTaskNew.createdAt ∧
    startNextQueuedTaskChoice [queuedTaskOld, queuedTaskNew] = some 2 := by decide

/-- The progress counters of one task. -/
structure TaskCounters where
  completed : Int
  successful : Int
  no_result : Int
  failed : Int
deriving DecidableEq

/-- One task's counters together with its domain statuses (row order =
creation order). -/
structure TaskProgress where
  counters : TaskCounters
  doms : List DomStatus
deriving DecidableEq

/-- `incrementTaskProgress` (src/db.js, lines 810-827). -/
def incrementTaskProgress (c : TaskCounters) (type : String) : TaskCounters :=
  if type = "successful" then
    { c with completed := c.completed + 1, successful := c.successful + 1 }
  else if type = "no_result" then
    { c with completed := c.completed + 1, no_result := c.no_result + 1 }
  else if type = "failed" then
    { c with completed := c.completed + 1, failed := c.failed + 1 }
  else c

/-- The number of failed domain rows. -/
def failedRowCount (doms : List DomStatus) : Nat :=
  (doms.filter (fun s => s = DomStatus.failed)).length

/-- `retryFailedDomains` (src/db.js, lines 832-850): failed rows go back to
pending; `completed_domains` is decremented by the number of rows changed
and `failed_domains` is zeroed. -/
def retryFailedDomains (t : TaskProgress) : TaskProgress :=
  { counters := { t.counters with
      completed := t.counters.completed - (failedRowCount t.doms : Int),
      failed := 0 },
    doms := t.doms.map (fun s => if s = DomStatus.failed then DomStatus.pending else s) }

/-- The counter operations performed by the run loop
(src/server.js, lines 944-976) and the retry endpoint. -/
inductive TaskOp
  | markRunning (i : Nat)
  | finishSuccessful (i : Nat)
  | finishNoResult (i : Nat)
  | finishFailed (i : Nat)
  | retryFailed
deriving DecidableEq

/-- Apply one operation: each terminal outcome pairs its `updateTaskDomain`
row write with the matching `incrementTaskProgress` call, as the run loop
does. -/
def applyTaskOp (t : TaskProgress) : TaskOp → TaskProgress
  | TaskOp.markRunning i => { t with doms := t.doms.set i DomStatus.running }
  | TaskOp.finishSuccessful i =>
    { counters := incrementTaskProgress t.counters "successful",
      doms := t.doms.set i DomStatus.completed }
  | TaskOp.finishNoResult i =>
    { counters := incrementTaskProgress t.counters "no_result",
      doms := t.doms.set i DomStatus.no_result }
  | TaskOp.finishFailed i =>
    { counters := incrementTaskProgress t.counters "failed",
      doms := t.doms.set i DomStatus.failed }
  | TaskOp.retryFailed => retryFailedDomains t

/-- Run-loop preconditions: a domain is marked running while pending, and
finished while running. -/
def opPre (t : TaskProgress) : TaskOp → Prop
  | TaskOp.markRunning i => t.doms.get? i = some DomStatus.pending
  | TaskOp.finishSuccessful i => t.doms.get? i = some DomStatus.running
  | TaskOp.finishNoResult i => t.doms.get? i = some DomStatus.running
  | TaskOp.finishFailed i => t.doms.get? i = some DomStatus.running
  | TaskOp.retryFailed => True

/-- The counter identity of the spec together with the agreement between
the `failed_domains` counter and the failed rows. -/
def countersConsistent (t : TaskProgress) : Prop :=
  t.counters.completed = t.counters.successful + t.counters.no_result + t.counters.failed ∧
  t.counters.failed = (failedRowCount t.doms : Int)

/-- Failed-row count of a cons cell. -/
theorem failedRowCount_cons (x : DomStatus) (l : List DomStatus) :
    failedRowCount (x :: l) = (if x = DomStatus.failed then 1 else 0) + failedRowCount l := by
  by_cases hx : x = DomStatus.failed <;> simp [failedRowCount, List.filter, hx] <;> omega

/-- Setting a row changes the failed-row count by the obvious amounts. -/
theorem failedRowCount_set : ∀ (l : List DomStatus) (i : Nat) (a b : DomStatus),
    l.get? i = some a →
    failedRowCount (l.set i b) + (if a = DomStatus.failed then 1 else 0) =
    failedRowCount l + (if b = DomStatus.failed then 1 else 0)
  | [], i, a, b, h => by simp at h
  | c :: cs, 0, a, b, h => by
    simp only [List.get?] at h
    injection h with h
    subst h
    simp only [List.set, failedRowCount_cons]
    by_cases hc : c = DomStatus.failed <;> by_cases hb : b = DomStatus.failed <;>
      simp [hc, hb] <;> omega
  | c :: cs, i + 1, a, b, h => by
    simp only [List.get?] at h
    have ih := failedRowCount_set cs i a b h
    simp only [List.set, failedRowCount_cons]
    by_cases hc : c = DomStatus.failed <;> simp [hc] <;> omega

/-- After the retry map no row is failed. -/
theorem failedRowCount_retryMap : ∀ (l : List DomStatus),
    failedRowCount (l.map (fun s => if s = DomStatus.failed then DomStatus.pending else s)) = 0
  | [] => rfl
  | c :: cs => by
    have ih := failedRowCount_retryMap cs
    by_cases hc : c = DomStatus.failed <;>
      simp only [List.map, hc, if_true, if_false, failedRowCount_cons, ih] <;> simp [hc]

/-- C6 (amended): every counter operation preserves the identity
`completed = successful + no_result + failed` (and the agreement of the
failed counter with the failed rows); `completed_domains` is non-decreasing
under every operation except retry-failed, which decreases it by exactly
the number of failed domains reset to pending. -/
theorem taskCounters_invariant (t : TaskProgress) (op : TaskOp)
    (hpre : opPre t op) (hinv : countersConsistent t) :
    countersConsistent (applyTaskOp t op) ∧
    (op ≠ TaskOp.retryFailed →
      t.counters.completed ≤ (applyTaskOp t op).counters.completed) ∧
    (op = TaskOp.retryFailed →
      (applyTaskOp t op).counters.completed =
        t.counters.completed - (failedRowCount t.doms : Int)) := by
  obtain ⟨hsum, hfail⟩ := hinv
  cases op with
  | markRunning i =>
    have hset := failedRowCount_set t.doms i DomStatus.pending DomStatus.running hpre
    simp only [if_neg (by simp : ¬ DomStatus.pending = DomStatus.failed),
      if_neg (by simp : ¬ DomStatus.running = DomStatus.failed)] at hset
    refine ⟨⟨hsum, ?_⟩, fun _ => le_refl _, fun h => by cases h⟩
    simp only [applyTaskOp, countersConsistent]
    omega
  | finishSuccessful i =>
    have hset := failedRowCount_set t.doms i DomStatus.running DomStatus.completed hpre
    simp only [if_neg (by simp : ¬ DomStatus.running = DomStatus.failed),
      if_neg (by simp : ¬ DomStatus.completed = DomStatus.failed)] at hset
    refine ⟨⟨?_, ?_⟩, fun _ => ?_, fun h => by cases h⟩
    all_goals simp only [applyTaskOp]
    all_goals simp [incrementTaskProgress, countersConsistent]
    all_goals omega
  | finishNoResult i =>
    have hset := failedRowCount_set t.doms i DomStatus.running DomStatus.no_result hpre
    simp only [if_neg (by simp : ¬ DomStatus.running = DomStatus.failed),
      if_neg (by simp : ¬ DomStatus.no_result = DomStatus.failed)] at hset
    refine ⟨⟨?_, ?_⟩, fun _ => ?_, fun h => by cases h⟩
    all_goals simp only [applyTaskOp]
    all_goals simp [incrementTaskProgress, countersConsistent]
    all_goals omega
  | finishFailed i =>
    have hset := failedRowCount_set t.doms i DomStatus.running DomStatus.failed hpre
    simp at hset
    refine ⟨⟨?_, ?_⟩, fun _ => ?_, fun h => by cases h⟩
    all_goals simp only [applyTaskOp]
    all_goals simp [incrementTaskProgress, countersConsistent]
    all_goals omega
  | retryFailed =>
    refine ⟨⟨?_, ?_⟩, fun h => absurd rfl h, fun _ => rfl⟩
    · simp only [applyTaskOp, retryFailedDomains]
      omega
    · simp only [applyTaskOp, retryFailedDomains, failedRowCount_retryMap]
      rfl

/-- One-domain task whose single domain failed (completed = failed = 1). -/
def taskOneFailed : TaskProgress :=
  { counters := { completed := 1, successful := 0, no_result := 0, failed := 1 },
    doms := [DomStatus.failed] }

/-- C6 counterexample: retry-failed decreases `completed_domains` (from 1 to
0 here), so `completed_domains` is not monotonically non-decreasing across
retry-failed. -/
theorem completedDomains_decreases_on_retry_counterexample :
    countersConsistent taskOneFailed ∧
    (retryFailedDomains taskOneFailed).counters.completed = 0 ∧
    (retryFailedDomains taskOneFailed).counters.completed <
      taskOneFailed.counters.completed := by
  refine ⟨⟨by decide, by decide⟩, by decide, by decide⟩

/-- Witness for the C6 theorem: the identity is preserved both by a
successful finish (which increases `completed_domains`) and by retry-failed
(which decreases it by the one failed row). -/
theorem taskCounters_invariant_witness :
    countersConsistent (applyTaskOp taskOneFailed TaskOp.retryFailed) ∧
    (applyTaskOp taskOneFailed TaskOp.retryFailed).counters.completed =
      taskOneFailed.counters.completed - 1 ∧
    countersConsistent (applyTaskOp
      { counters := { completed := 0, successful := 0, no_result := 0, failed := 0 },
        doms := [DomStatus.running] } (TaskOp.finishSuccessful 0)) := by
  obtain ⟨h1, -, h3⟩ := taskCounters_invariant taskOneFailed TaskOp.retryFailed trivial
    ⟨by decide, by decide⟩
  obtain ⟨h4, -, -⟩ := taskCounters_invariant
    { counters := { completed := 0, successful := 0, no_result := 0, failed := 0 },
      doms := [DomStatus.running] } (TaskOp.finishSuccessful 0) (by rfl)
    ⟨by decide, by decide⟩
  refine ⟨h1, ?_, h4⟩
  rw [h3 rfl]
  decide

/-- `resumeInterruptedTasks` (src/server.js, lines 1067-1110): every task
left `running` has its `running` domains reset to pending and goes back to
pending itself; counters are not touched; the head of the running-task
listing is scheduled for auto-resume after the grace delay. -/
def resumeInterruptedTasks (db : Db) : Db × Option Nat :=
  let runningTasks := getTasksByStatus db.tasks TaskStatus.running
  ({ tasks := db.tasks.map (fun t =>
       if t.status = TaskStatus.running then { t with status := TaskStatus.pending } else t),
     doms := db.doms.map (fun d =>
       if (db.tasks.any (fun t => t.id == d.taskId && t.status == TaskStatus.running)) &&
          d.status == DomStatus.running
       then { d with status := DomStatus.pending } else d) },
   (runningTasks.head?).map TaskRow.id)

/-- C7: on startup, every task left `running` is reset to pending with its
counters untouched, its `running` domains are reset to pending without
being counted, completed domains are left unchanged, and exactly one
recovered task (the head of the running-task listing) is auto-resumed. -/
theorem resumeInterruptedTasks_recovery (db : Db) (t0 : TaskRow)
    (h0 : t0 ∈ db.tasks) (hrun : t0.status = TaskStatus.running) :
    (∀ t ∈ db.tasks,
      (if t.status = TaskStatus.running then { t with status := TaskStatus.pending } else t) ∈
        (resumeInterruptedTasks db).1.tasks) ∧
    (∀ d ∈ db.doms,
      (if (db.tasks.any (fun t => t.id == d.taskId && t.status == TaskStatus.running)) &&
          d.status == DomStatus.running
       then { d with status := DomStatus.pending } else d) ∈
        (resumeInterruptedTasks db).1.doms) ∧
    (∀ d ∈ db.doms, d.status = DomStatus.completed → d ∈ (resumeInterruptedTasks db).1.doms) ∧
    (∃ r, (resumeInterruptedTasks db).2 = some r ∧
      ∃ tr ∈ db.tasks, tr.id = r ∧ tr.status = TaskStatus.running) := by
  refine ⟨?_, ?_, ?_, ?_⟩
  · intro t ht
    exact List.mem_map_of_mem _ ht
  · intro d hd
    exact List.mem_map_of_mem _ hd
  · intro d hd hcomp
    have hmm := List.mem_map_of_mem (fun d : DomRow =>
      if (db.tasks.any (fun t => t.id == d.taskId && t.status == TaskStatus.running)) &&
         d.status == DomStatus.running
      then { d with status := DomStatus.pending } else d) hd
    simp only [hcomp] at hmm
    simp only [show (DomStatus.completed == DomStatus.running) = false from rfl,
      Bool.and_false, Bool.false_eq_true, if_false] at hmm
    exact hmm
  · have hmem : t0 ∈ getTasksByStatus db.tasks TaskStatus.running := by
      rw [getTasksByStatus, sortByJS_mem, List.mem_filter]
      exact ⟨h0, by simp [hrun]⟩
    cases hlist : getTasksByStatus db.tasks TaskStatus.running with
    | nil => rw [hlist] at hmem; exact absurd hmem (List.not_mem_nil t0)
    | cons a as =>
      refine ⟨a.id, by simp [resumeInterruptedTasks, hlist], a, ?_, rfl, ?_⟩
      · have : a ∈ getTasksByStatus db.tasks TaskStatus.running := by
          rw [hlist]; exact List.mem_cons_self a as
        rw [getTasksByStatus, sortByJS_mem] at this
        exact (List.mem_filter.mp this).1
      · have : a ∈ getTasksByStatus db.tasks TaskStatus.running := by
          rw [hlist]; exact List.mem_cons_self a as
        rw [getTasksByStatus, sortByJS_mem] at this
        have := (List.mem_filter.mp this).2
        simpa using this

/-- Scenario D task: left `running` when the process died. -/
def scenarioDTask : TaskRow :=
  { id := 1, status := TaskStatus.running, createdAt := 5,
    completed_domains := 1, successful_domains := 1, no_result_domains := 0, failed_domains := 0 }

/-- Scenario D domain 1: already completed. -/
def scenarioDComplete : DomRow := { id := 10, taskId := 1, status := DomStatus.completed }

/-- Scenario D domain 2: stuck in `running`. -/
def scenarioDRun : DomRow := { id := 11, taskId := 1, status := DomStatus.running }

/-- Scenario D store state at startup. -/
def scenarioDDb : Db := { tasks := [scenarioDTask], doms := [scenarioDComplete, scenarioDRun] }

/-- The recovered task row: back to pending, counters untouched. -/
def recoveredTask : TaskRow :=
  { id := 1, status := TaskStatus.pending, createdAt := 5,
    completed_domains := 1, successful_domains := 1, no_result_domains := 0, failed_domains := 0 }

/-- The stuck domain after recovery: reset to pending. -/
def recoveredDom : DomRow := { id := 11, taskId := 1, status := DomStatus.pending }

/-- Witness for the C7 theorem (Scenario D): the stuck domain resets to
pending, the completed domain survives, the task returns to pending with
its counters intact, and task 1 is the one auto-resumed. -/
theorem resumeInterruptedTasks_recovery_witness :
    recoveredTask ∈ (resumeInterruptedTasks scenarioDDb).1.tasks ∧
    recoveredDom ∈ (resumeInterruptedTasks scenarioDDb).1.doms ∧
    scenarioDComplete ∈ (resumeInterruptedTasks scenarioDDb).1.doms ∧
    (resumeInterruptedTasks scenarioDDb).2 = some 1 := by
  have H := resumeInterruptedTasks_recovery scenarioDDb scenarioDTask (by decide) (by decide)
  refine ⟨?_, ?_, H.2.2.1 scenarioDComplete (by decide) (by decide), by decide⟩
  · have h1 := H.1 scenarioDTask (by decide)
    rwa [show (if scenarioDTask.status = TaskStatus.running
        then { scenarioDTask with status := TaskStatus.pending } else scenarioDTask) =
        recoveredTask from by decide] at h1
  · have h2 := H.2.1 scenarioDRun (by decide)
    rwa [show (if (scenarioDDb.tasks.any
          (fun t => t.id == scenarioDRun.taskId && t.status == TaskStatus.running)) &&
          scenarioDRun.status == DomStatus.running
        then { scenarioDRun with status := DomStatus.pending } else scenarioDRun) =
        recoveredDom from by decide] at h2

/-- `getTask` (src/db.js, lines 721-724): first row with the given id. -/
def getTask (tasks : List TaskRow) (taskId : Nat) : Option TaskRow :=
  tasks.find? (fun t => t.id == taskId)

/-- `updateTaskStatus` restricted to the status column. -/
def updateTaskStatusRow (tasks : List TaskRow) (taskId : Nat) (st : TaskStatus) : List TaskRow :=
  tasks.map (fun t => if t.id = taskId then { t with status := st } else t)

/-- `skipRemainingDomains` (src/db.js, lines 855-861): pending and running
domains of the task become skipped. -/
def skipRemainingDomains (doms : List DomRow) (taskId : Nat) : List DomRow :=
  doms.map (fun d =>
    if d.taskId = taskId ∧ (d.status = DomStatus.pending ∨ d.status = DomStatus.running)
    then { d with status := DomStatus.skipped } else d)

/-- The store effect of `POST /api/tasks/:id/cancel`
(src/server.js, lines 752-795): a queued task merely returns to pending with
its domains untouched; any other existing task has its pending/running
domains skipped and its status set to cancelled.  (The subsequent
fire-and-forget queue advance is a separate `runTask` invocation.) -/
def cancelTaskEndpoint (db : Db) (taskId : Nat) : Db :=
  match getTask db.tasks taskId with
  | none => db
  | some t =>
    if t.status = TaskStatus.queued then
      { db with tasks := updateTaskStatusRow db.tasks taskId TaskStatus.pending }
    else
      { tasks := updateTaskStatusRow db.tasks taskId TaskStatus.cancelled,
        doms := skipRemainingDomains db.doms taskId }

/-- C9: cancelling a task that is not `queued` (whatever its status —
pending, running, paused, completed or already cancelled) skips all its
pending/running domains and sets the task to cancelled; cancelling a
`queued` task only returns it to pending and leaves every domain
untouched. -/
theorem cancelTaskEndpoint_behaviour (db : Db) (taskId : Nat) (t : TaskRow)
    (ht : getTask db.tasks taskId = some t) :
    (t.status = TaskStatus.queued →
      (cancelTaskEndpoint db taskId).doms = db.doms ∧
      ∀ u ∈ db.tasks,
        (if u.id = taskId then { u with status := TaskStatus.pending } else u) ∈
          (cancelTaskEndpoint db taskId).tasks) ∧
    (t.status ≠ TaskStatus.queued →
      (∀ u ∈ db.tasks,
        (if u.id = taskId then { u with status := TaskStatus.cancelled } else u) ∈
          (cancelTaskEndpoint db taskId).tasks) ∧
      (∀ d ∈ db.doms,
        (if d.taskId = taskId ∧ (d.status = DomStatus.pending ∨ d.status = DomStatus.running)
         then { d with status := DomStatus.skipped } else d) ∈
          (cancelTaskEndpoint db taskId).doms)) := by
  constructor
  · intro hq
    have hcancel : cancelTaskEndpoint db taskId =
        { db with tasks := updateTaskStatusRow db.tasks taskId TaskStatus.pending } := by
      simp [cancelTaskEndpoint, ht, hq]
    rw [hcancel]
    exact ⟨rfl, fun u hu => List.mem_map_of_mem _ hu⟩
  · intro hq
    have hcancel : cancelTaskEndpoint db taskId =
        { tasks := updateTaskStatusRow db.tasks taskId TaskStatus.cancelled,
          doms := skipRemainingDomains db.doms taskId } := by
      simp only [cancelTaskEndpoint, ht, if_neg hq]
    rw [hcancel]
    exact ⟨fun u hu => List.mem_map_of_mem _ hu, fun d hd => List.mem_map_of_mem _ hd⟩

/-- A completed task about to be cancelled. -/
def completedTask : TaskRow :=
  { id := 3, status := TaskStatus.completed, createdAt := 7,
    completed_domains := 1, successful_domains := 1, no_result_domains := 0, failed_domains := 0 }

/-- A pending domain of the completed task. -/
def pendingDomOfTask3 : DomRow := { id := 30, taskId := 3, status := DomStatus.pending }

/-- A skipped-already domain of the completed task. -/
def completedDomOfTask3 : DomRow := { id := 31, taskId := 3, status := DomStatus.completed }

/-- A queued task used for the queued branch of the witness. -/
def queuedTaskForCancel : TaskRow :=
  { id := 4, status := TaskStatus.queued, createdAt := 8,
    completed_domains := 0, successful_domains := 0, no_result_domains := 0, failed_domains := 0 }

/-- Store holding the completed task and the queued task. -/
def cancelDemoDb : Db :=
  { tasks := [completedTask, queuedTaskForCancel],
    doms := [pendingDomOfTask3, completedDomOfTask3] }

/-- Witness for the C9 theorem: cancelling the completed task 3 skips its
pending domain, keeps its completed domain, and marks the task cancelled —
while cancelling the queued task 4 only returns it to pending and leaves
the domains untouched. -/
theorem cancelTaskEndpoint_behaviour_witness :
    (⟨3, TaskStatus.cancelled, 7, 1, 1, 0, 0⟩ : TaskRow) ∈
      (cancelTaskEndpoint cancelDemoDb 3).tasks ∧
    (⟨30, 3, DomStatus.skipped⟩ : DomRow) ∈
      (cancelTaskEndpoint cancelDemoDb 3).doms ∧
    completedDomOfTask3 ∈ (cancelTaskEndpoint cancelDemoDb 3).doms ∧
    (cancelTaskEndpoint cancelDemoDb 4).doms = cancelDemoDb.doms ∧
    (⟨4, TaskStatus.pending, 8, 0, 0, 0, 0⟩ : TaskRow) ∈
      (cancelTaskEndpoint cancelDemoDb 4).tasks := by
  have H3 := (cancelTaskEndpoint_behaviour cancelDemoDb 3 completedTask (by decide)).2 (by decide)
  have H4 := (cancelTaskEndpoint_behaviour cancelDemoDb 4 queuedTaskForCancel (by decide)).1 (by decide)
  refine ⟨?_, ?_, ?_, H4.1, ?_⟩
  · have h := H3.1 completedTask (by decide)
    have e1 : (if completedTask.id = 3 then { completedTask with status := TaskStatus.cancelled }
        else completedTask) = (⟨3, TaskStatus.cancelled, 7, 1, 1, 0, 0⟩ : TaskRow) := by decide
    rwa [e1] at h
  · have h := H3.2 pendingDomOfTask3 (by decide)
    have e2 : (if pendingDomOfTask3.taskId = 3 ∧ (pendingDomOfTask3.status = DomStatus.pending ∨
        pendingDomOfTask3.status = DomStatus.running)
        then { pendingDomOfTask3 with status := DomStatus.skipped } else pendingDomOfTask3) =
        (⟨30, 3, DomStatus.skipped⟩ : DomRow) := by decide
    rwa [e2] at h
  · have h := H3.2 completedDomOfTask3 (by decide)
    have e3 : (if completedDomOfTask3.taskId = 3 ∧ (completedDomOfTask3.status = DomStatus.pending ∨
        completedDomOfTask3.status = DomStatus.running)
        then { completedDomOfTask3 with status := DomStatus.skipped } else completedDomOfTask3) =
        completedDomOfTask3 := by decide
    rwa [e3] at h
  · have h := H4.2 queuedTaskForCancel (by decide)
    have e4 : (if queuedTaskForCancel.id = 4 then
        { queuedTaskForCancel with status := TaskStatus.pending } else queuedTaskForCancel) =
        (⟨4, TaskStatus.pending, 8, 0, 0, 0, 0⟩ : TaskRow) := by decide
    rwa [e4] at h
